import Mathlib

/-!
Verification of the usage-aggregation and next-cycle-date engine of the
Friska billing application (src/streamlit_app.py), via a shallow embedding.

Strings are modelled as lists of characters; all character classification
is done on code points (Char.toNat).  Spreadsheet cells are either numbers
(modelled as integers, matching the whole-number serials the sheets hold)
or text.  Python floats are modelled as exact unnormalized rationals
(structure PyQ), Python exceptions as an Except layer.  Python dates are
modelled as year/month/day triples (YMD) and, for the forward calendar
stream of the next-cycle planner, as proleptic-Gregorian ordinals
(Int, matching Python date.toordinal).
-/

/-- Python str.isspace-relevant whitespace for ASCII (space, TAB..CR). -/
def isSpaceC (c : Char) : Bool := c.toNat = 32 || (9 ≤ c.toNat && c.toNat ≤ 13)

/-- Lowercase an ASCII code point, as Python str.lower does for ASCII. -/
def lowerN (n : Nat) : Nat := if 65 ≤ n ∧ n ≤ 90 then n + 32 else n

/-- Uppercase an ASCII code point. -/
def upperN (n : Nat) : Nat := if 97 ≤ n ∧ n ≤ 122 then n - 32 else n

def lowerC (c : Char) : Char := Char.ofNat (lowerN c.toNat)

def upperC (c : Char) : Char := Char.ofNat (upperN c.toNat)

/-- Python str.lower over a whole string. -/
def lowerS (s : List Char) : List Char := s.map lowerC

/-- Python str.strip: drop leading and trailing whitespace. -/
def stripLead (s : List Char) : List Char := s.dropWhile isSpaceC

def stripTrail (s : List Char) : List Char := (s.reverse.dropWhile isSpaceC).reverse

def pyStrip (s : List Char) : List Char := stripTrail (stripLead s)

/-- Replace each maximal whitespace run by a single space
(the effect of re.sub applied with a one-or-more whitespace pattern).
The Boolean flag records whether the previous character was whitespace. -/
def cwGo : Bool → List Char → List Char
  | _, [] => []
  | b, c :: r =>
    if isSpaceC c then (if b then cwGo true r else ' ' :: cwGo true r)
    else c :: cwGo false r

def collapseWS (s : List Char) : List Char := cwGo false s

/-- norm_name from the source: strip, collapse inner whitespace, lowercase. -/
def normName (s : List Char) : List Char := lowerS (collapseWS (pyStrip s))

/-- Decimal digit character. -/
def digitChar (k : Nat) : Char := Char.ofNat (48 + k)

def isDigitN (n : Nat) : Bool := 48 ≤ n && n ≤ 57

def dvalN (n : Nat) : Nat := n - 48

/-- Decimal digits of a natural number (no padding), with fuel for
structural recursion; natChars n uses fuel n which always suffices. -/
def natCharsGo : Nat → Nat → List Char
  | 0, n => [digitChar n]
  | fuel + 1, n => if n < 10 then [digitChar n] else natCharsGo fuel (n / 10) ++ [digitChar (n % 10)]

def natChars (n : Nat) : List Char := natCharsGo n n

/-- Python str() of an integer. -/
def intChars : Int → List Char
  | .ofNat n => natChars n
  | .negSucc n => '-' :: natChars (n + 1)

/-- Contiguous-substring test (Python `in` on strings); characters are
compared exactly, callers lowercase both sides first where the source does. -/
def leadEq : List Char → List Char → Bool
  | [], _ => true
  | _ :: _, [] => false
  | a :: as, b :: bs => a == b && leadEq as bs

def hasSub (pat : List Char) : List Char → Bool
  | [] => leadEq pat []
  | c :: r => leadEq pat (c :: r) || hasSub pat r

/-- A spreadsheet cell as returned with unformatted values: a number or text.
Numeric cells are modelled as integers (the sheets hold whole-number serials). -/
inductive Cell where
  | num : Int → Cell
  | str : List Char → Cell
deriving DecidableEq

/-- Python exceptions that the embedded code can raise. -/
inductive PyErr where
  | attrError
  | valueError
  | overflowError
deriving DecidableEq

/-- Python str() of a cell value. -/
def pyStr : Cell → List Char
  | .num n => intChars n
  | .str s => s

/-- norm_name applied to a raw cell, as the source does on client-name cells:
`(s or "")` turns a falsy value (empty text, the number 0) into the empty
string, any other number then crashes on .strip() (AttributeError). -/
def normCell : Cell → Except PyErr (List Char)
  | .num n => if n = 0 then .ok [] else .error .attrError
  | .str s => .ok (normName s)

/-- Python float values, modelled as exact unnormalized rationals.
Invariant (maintained by all constructors below): den ≠ 0. -/
structure PyQ where
  num : Int
  den : Nat
deriving DecidableEq

def qOfNat (n : Nat) : PyQ := ⟨n, 1⟩

def qZero : PyQ := ⟨0, 1⟩

def qAdd (a b : PyQ) : PyQ := ⟨a.num * b.den + b.num * a.den, a.den * b.den⟩

def qMulNat (a : PyQ) (k : Nat) : PyQ := ⟨a.num * k, a.den⟩

def qLt (a b : PyQ) : Bool := a.num * (b.den : Int) < b.num * (a.den : Int)

def qIsZero (a : PyQ) : Bool := a.num = 0

/-- Python max over a nonempty list of floats (first element wins ties). -/
def qMaxFold (m : PyQ) : List PyQ → PyQ
  | [] => m
  | x :: r => qMaxFold (if qLt m x then x else m) r

def qMaxList : List PyQ → PyQ
  | [] => qZero
  | p :: ps => qMaxFold p ps

/-- Python sum over a list of floats (starts from integer 0). -/
def qSumList (l : List PyQ) : PyQ := l.foldl qAdd qZero

/-- Python round() to an integer: nearest, ties to even (banker's rounding). -/
def pyRound (q : PyQ) : Int :=
  let f := Int.fdiv q.num q.den
  let r2 := 2 * (q.num - f * q.den)
  if r2 < (q.den : Int) then f
  else if (q.den : Int) < r2 then f + 1
  else if Int.emod f 2 = 0 then f else f + 1

/-- A Python datetime.date, as year/month/day. -/
structure YMD where
  y : Nat
  m : Nat
  d : Nat
deriving DecidableEq

/-- Gregorian leap year. -/
def leapY (y : Nat) : Bool := (y % 4 = 0 && y % 100 ≠ 0) || y % 400 = 0

def daysInMonth (y m : Nat) : Nat :=
  if m = 2 then (if leapY y then 29 else 28)
  else if m = 4 ∨ m = 6 ∨ m = 9 ∨ m = 11 then 30
  else 31

/-- A triple that datetime.date would accept. -/
def validYMD (a : YMD) : Prop :=
  1 ≤ a.y ∧ a.y ≤ 9999 ∧ 1 ≤ a.m ∧ a.m ≤ 12 ∧ 1 ≤ a.d ∧ a.d ≤ daysInMonth a.y a.m

instance (a : YMD) : Decidable (validYMD a) := by unfold validYMD; infer_instance

/-- Python date ordering (lexicographic on (y, m, d); identical to the
chronological order on valid dates). -/
def ymdLe (a b : YMD) : Bool :=
  a.y < b.y || (a.y = b.y && (a.m < b.m || (a.m = b.m && a.d ≤ b.d)))

/-- Days in full months preceding month m in a non-leap year. -/
def cumDays (m : Nat) : Nat :=
  match m with
  | 1 => 0 | 2 => 31 | 3 => 59 | 4 => 90 | 5 => 120 | 6 => 151
  | 7 => 181 | 8 => 212 | 9 => 243 | 10 => 273 | 11 => 304 | 12 => 334
  | _ => 0

/-- Python date.toordinal: day number with 0001-01-01 as day 1. -/
def pyToOrd (a : YMD) : Nat :=
  365 * (a.y - 1) + ((a.y - 1) / 4 - (a.y - 1) / 100) + (a.y - 1) / 400
    + cumDays a.m + (if 2 < a.m ∧ leapY a.y then 1 else 0) + a.d

/-- Inverse of toordinal (civil-from-days, shifted to the Python ordinal).
Uses floor division throughout; total on all of Int. -/
def ordToYMD (o : Int) : YMD :=
  let z : Int := o - 719163 + 719468
  let era : Int := Int.fdiv z 146097
  let doe : Int := z - era * 146097
  let yoe : Int := Int.fdiv (doe - Int.fdiv doe 1460 + Int.fdiv doe 36524 - Int.fdiv doe 146096) 365
  let yy : Int := yoe + era * 400
  let doy : Int := doe - (365 * yoe + Int.fdiv yoe 4 - Int.fdiv yoe 100)
  let mp : Int := Int.fdiv (5 * doy + 2) 153
  let dd : Int := doy - Int.fdiv (153 * mp + 2) 5 + 1
  let mm : Int := mp + (if mp < 10 then 3 else -9)
  let yr : Int := yy + (if mm ≤ 2 then 1 else 0)
  ⟨yr.toNat, mm.toNat, dd.toNat⟩

/-- Ordinal of the spreadsheet serial-number epoch 1899-12-30. -/
def epochOrd : Int := (pyToOrd ⟨1899, 12, 30⟩ : Int)

/-- Largest Python ordinal (9999-12-31). -/
def maxOrd : Int := (pyToOrd ⟨9999, 12, 31⟩ : Int)

/-- Python date.weekday() from an ordinal: Monday = 0 .. Sunday = 6. -/
def pyWd (o : Int) : Int := (o + 6) % 7

/-! ### The strptime-style text date parser (to_dt)

The source tries a fixed list of strftime format strings.  Each format is a
token sequence; token matching follows the regexes CPython's _strptime
compiles for the directives used here:
  d : day   (31|30|2X|1X|0X with X nonzero|single nonzero digit)
  m : month (12|11|10|0X|single nonzero digit)
  y : two-digit year, Y : exactly four digits, b : month abbreviation,
  lit c : literal character, ws : one or more whitespace characters.
Alternatives are tried in regex order with full backtracking, and the whole
string must be consumed. -/

inductive Tok where
  | d | m | y | bigY | b
  | lit : Char → Tok
  | ws

/-- Partially collected strptime fields. -/
structure PF where
  dayv : Option Nat := none
  monv : Option Nat := none
  y2 : Option Nat := none
  y4 : Option Nat := none
deriving DecidableEq

/-- Candidate matches for the day directive, in regex-alternative order;
each candidate is (value, rest of input). -/
def candsD : List Char → List (Nat × List Char)
  | [] => []
  | [a] => if 49 ≤ a.toNat ∧ a.toNat ≤ 57 then [(dvalN a.toNat, [])] else []
  | a :: b :: r =>
    (if a.toNat = 51 ∧ (b.toNat = 48 ∨ b.toNat = 49) then [(30 + dvalN b.toNat, r)] else [])
    ++ (if (a.toNat = 49 ∨ a.toNat = 50) ∧ isDigitN b.toNat then [(10 * dvalN a.toNat + dvalN b.toNat, r)] else [])
    ++ (if a.toNat = 48 ∧ (49 ≤ b.toNat ∧ b.toNat ≤ 57) then [(dvalN b.toNat, r)] else [])
    ++ (if 49 ≤ a.toNat ∧ a.toNat ≤ 57 then [(dvalN a.toNat, b :: r)] else [])

/-- Candidate matches for the month directive, in regex-alternative order. -/
def candsM : List Char → List (Nat × List Char)
  | [] => []
  | [a] => if 49 ≤ a.toNat ∧ a.toNat ≤ 57 then [(dvalN a.toNat, [])] else []
  | a :: b :: r =>
    (if a.toNat = 49 ∧ (48 ≤ b.toNat ∧ b.toNat ≤ 50) then [(10 + dvalN b.toNat, r)] else [])
    ++ (if a.toNat = 48 ∧ (49 ≤ b.toNat ∧ b.toNat ≤ 57) then [(dvalN b.toNat, r)] else [])
    ++ (if 49 ≤ a.toNat ∧ a.toNat ≤ 57 then [(dvalN a.toNat, b :: r)] else [])

/-- Exactly two digits (the %y regex). -/
def candsY2 : List Char → List (Nat × List Char)
  | a :: b :: r =>
    if isDigitN a.toNat ∧ isDigitN b.toNat then [(10 * dvalN a.toNat + dvalN b.toNat, r)] else []
  | _ => []

/-- Exactly four digits (the %Y regex). -/
def candsY4 : List Char → List (Nat × List Char)
  | a :: b :: c :: e :: r =>
    if isDigitN a.toNat ∧ isDigitN b.toNat ∧ isDigitN c.toNat ∧ isDigitN e.toNat then
      [(1000 * dvalN a.toNat + 100 * dvalN b.toNat + 10 * dvalN c.toNat + dvalN e.toNat, r)]
    else []
  | _ => []

/-- Month number from the lowercased code points of a three-letter
abbreviation (the %b alternation, matched case-insensitively). -/
def abbrevIdx (a b c : Nat) : Option Nat :=
  if a = 106 ∧ b = 97 ∧ c = 110 then some 1        -- jan
  else if a = 102 ∧ b = 101 ∧ c = 98 then some 2   -- feb
  else if a = 109 ∧ b = 97 ∧ c = 114 then some 3   -- mar
  else if a = 97 ∧ b = 112 ∧ c = 114 then some 4   -- apr
  else if a = 109 ∧ b = 97 ∧ c = 121 then some 5   -- may
  else if a = 106 ∧ b = 117 ∧ c = 110 then some 6  -- jun
  else if a = 106 ∧ b = 117 ∧ c = 108 then some 7  -- jul
  else if a = 97 ∧ b = 117 ∧ c = 103 then some 8   -- aug
  else if a = 115 ∧ b = 101 ∧ c = 112 then some 9  -- sep
  else if a = 111 ∧ b = 99 ∧ c = 116 then some 10  -- oct
  else if a = 110 ∧ b = 111 ∧ c = 118 then some 11 -- nov
  else if a = 100 ∧ b = 101 ∧ c = 99 then some 12  -- dec
  else none

def candsB : List Char → List (Nat × List Char)
  | a :: b :: c :: r =>
    match abbrevIdx (lowerN a.toNat) (lowerN b.toNat) (lowerN c.toNat) with
    | some m => [(m, r)]
    | none => []
  | _ => []

/-- Whitespace-run consumption lengths, greedy first (the \s+ regex piece). -/
def wsRun : List Char → Nat
  | [] => 0
  | c :: r => if isSpaceC c then wsRun r + 1 else 0

def wsSplits (s : List Char) : List Nat := (List.range (wsRun s)).reverse.map (· + 1)

def firstSome {α β : Type} (f : α → Option β) : List α → Option β
  | [] => none
  | a :: as =>
    match f a with
    | some b => some b
    | none => firstSome f as

/-- Match a token sequence against the whole input with backtracking,
accumulating the collected fields. -/
def matchToks : List Tok → List Char → PF → Option PF
  | [], s, acc => if s.isEmpty then some acc else none
  | .lit c :: ts, s, acc =>
    match s with
    | c' :: r => if c'.toNat = c.toNat then matchToks ts r acc else none
    | [] => none
  | .ws :: ts, s, acc => firstSome (fun k => matchToks ts (s.drop k) acc) (wsSplits s)
  | .d :: ts, s, acc => firstSome (fun p => matchToks ts p.2 { acc with dayv := some p.1 }) (candsD s)
  | .m :: ts, s, acc => firstSome (fun p => matchToks ts p.2 { acc with monv := some p.1 }) (candsM s)
  | .y :: ts, s, acc => firstSome (fun p => matchToks ts p.2 { acc with y2 := some p.1 }) (candsY2 s)
  | .bigY :: ts, s, acc => firstSome (fun p => matchToks ts p.2 { acc with y4 := some p.1 }) (candsY4 s)
  | .b :: ts, s, acc => firstSome (fun p => matchToks ts p.2 { acc with monv := some p.1 }) (candsB s)

/-- CPython's two-digit-year pivot: 00-68 ↦ 2000s, 69-99 ↦ 1900s. -/
def pivotY2 (n : Nat) : Nat := if n ≤ 68 then n + 2000 else n + 1900

/-- Build the date from collected fields, validating as datetime() would;
out-of-range components make the format attempt fail (ValueError → next). -/
def buildYMD (pf : PF) : Option YMD :=
  match pf.dayv, pf.monv, (match pf.y4 with | some v => some v | none => pf.y2.map pivotY2) with
  | some dd, some mm, some yy =>
    if 1 ≤ yy ∧ yy ≤ 9999 ∧ 1 ≤ mm ∧ mm ≤ 12 ∧ 1 ≤ dd ∧ dd ≤ daysInMonth yy mm then
      some ⟨yy, mm, dd⟩
    else none
  | _, _, _ => none

/-- The source's ordered format list:
"%d-%b-%y" "%d-%b-%Y" "%d/%m/%Y" "%d/%m/%y" "%Y-%m-%d" "%d %b %Y" "%d %b %y". -/
def fmtList : List (List Tok) :=
  [ [.d, .lit '-', .b, .lit '-', .y]
  , [.d, .lit '-', .b, .lit '-', .bigY]
  , [.d, .lit '/', .m, .lit '/', .bigY]
  , [.d, .lit '/', .m, .lit '/', .y]
  , [.bigY, .lit '-', .m, .lit '-', .d]
  , [.d, .ws, .b, .ws, .bigY]
  , [.d, .ws, .b, .ws, .y] ]

def parseWithFormats (s : List Char) : Option YMD :=
  firstSome (fun f => (matchToks f s {}).bind buildYMD) fmtList

/-- The alternation of the weekday-prefix regex, in source order. -/
def wdAlts : List (List Char) :=
  [ ['m','o','n'], ['t','u','e'], ['w','e','d'], ['t','h','u'], ['f','r','i']
  , ['s','a','t'], ['s','u','n']
  , ['m','o','n','d','a','y'], ['t','u','e','s','d','a','y'], ['w','e','d','n','e','s','d','a','y']
  , ['t','h','u','r','s','d','a','y'], ['f','r','i','d','a','y'], ['s','a','t','u','r','d','a','y']
  , ['s','u','n','d','a','y'] ]

/-- Case-insensitive prefix match against a lowercase pattern. -/
def ciPref : List Char → List Char → Bool
  | [], _ => true
  | _ :: _, [] => false
  | a :: as, b :: bs => lowerN b.toNat = a.toNat && ciPref as bs

/-- One weekday alternative followed by optional whitespace, a comma and
optional whitespace; returns the remainder after the whole match. -/
def wdAltMatch (w t : List Char) : Option (List Char) :=
  if ciPref w t then
    match stripLead (t.drop w.length) with
    | ',' :: v => some (stripLead v)
    | _ => none
  else none

/-- Strip a leading "Weekday, " prefix (the WEEKDAY_PREFIX regex sub). -/
def wdStrip (s : List Char) : List Char :=
  match firstSome (fun w => wdAltMatch w (stripLead s)) wdAlts with
  | some rest => rest
  | none => s

/-- The bare "<day> <MonthName>" fallback regex of to_dt:
optional whitespace, one or two digits, whitespace, letters, optional
trailing whitespace; returns the digit text and the letter text. -/
def isAlphaN (n : Nat) : Bool := (65 ≤ n && n ≤ 90) || (97 ≤ n && n ≤ 122)

def takeAlpha : List Char → (List Char × List Char)
  | [] => ([], [])
  | c :: r =>
    if isAlphaN c.toNat then
      let p := takeAlpha r
      (c :: p.1, p.2)
    else ([], c :: r)

def takeDigits : List Char → (List Char × List Char)
  | [] => ([], [])
  | c :: r =>
    if isDigitN c.toNat then
      let p := takeDigits r
      (c :: p.1, p.2)
    else ([], c :: r)

def bareDayMonth (s : List Char) : Option (List Char × List Char) :=
  let t := stripLead s
  let pd := takeDigits t
  if pd.1.length = 1 ∨ pd.1.length = 2 then
    let afterWs := stripLead pd.2
    if pd.2 ≠ [] ∧ afterWs.length < pd.2.length then
      let pa := takeAlpha afterWs
      if pa.1 ≠ [] ∧ (pa.2.all isSpaceC) then some (pd.1, pa.1) else none
    else none
  else none

/-- Python str.title on a single alphabetic word. -/
def titleWord : List Char → List Char
  | [] => []
  | c :: r => upperC c :: r.map lowerC

/-- to_dt on text, with the ambient year ty (date.today().year) used only
by the bare "<day> <MonthName>" fallback. -/
def toDtStr (ty : Nat) (v : List Char) : Option YMD :=
  let s := pyStrip v
  if s = [] then none
  else
    let s := wdStrip s
    match parseWithFormats s with
    | some dt => some dt
    | none =>
      match bareDayMonth s with
      | some (dayChars, monChars) =>
        (matchToks [.d, .lit '-', .b, .lit '-', .bigY]
          (dayChars ++ '-' :: (titleWord monChars ++ '-' :: natChars ty)) {}).bind buildYMD
      | none => none

/-- to_dt on a cell.  A numeric cell is 1899-12-30 plus that many days;
a result outside Python's date range raises OverflowError (uncaught). -/
def toDtCell (ty : Nat) : Cell → Except PyErr (Option YMD)
  | .num n =>
    let o := epochOrd + n
    if 1 ≤ o ∧ o ≤ maxOrd then .ok (some (ordToYMD o)) else .error .overflowError
  | .str s => .ok (toDtStr ty s)

/-! ### parse_float and the delivery pricing resolver -/

def natOfDigits (l : List Char) : Nat := l.foldl (fun acc c => 10 * acc + dvalN c.toNat) 0

/-- Python float() on a string containing only digits, dots and minus signs
(what remains after parse_float's character filter): an optional leading
minus, then digits with at most one dot and at least one digit. -/
def pyFloatCore (s : List Char) : Option PyQ :=
  let p1 := takeDigits s
  match p1.2 with
  | [] => if p1.1 = [] then none else some ⟨natOfDigits p1.1, 1⟩
  | '.' :: r =>
    let p2 := takeDigits r
    if p2.2 = [] ∧ (p1.1 ≠ [] ∨ p2.1 ≠ []) then
      some ⟨natOfDigits p1.1 * 10 ^ p2.1.length + natOfDigits p2.1, 10 ^ p2.1.length⟩
    else none
  | _ => none

def qNeg (a : PyQ) : PyQ := ⟨-a.num, a.den⟩

def pyFloatOfChars (s : List Char) : Option PyQ :=
  match s with
  | '-' :: r => (pyFloatCore r).map qNeg
  | _ => pyFloatCore s

/-- parse_float from the source: str() the value, strip, keep only digits,
dots and minus signs, then float(); anything that fails becomes 0.0. -/
def parse_float (x : Cell) : PyQ :=
  let s := pyStrip (pyStr x)
  let filtered := s.filter (fun c => isDigitN c.toNat || c.toNat = 46 || c.toNat = 45)
  if filtered = [] then qZero
  else
    match pyFloatOfChars filtered with
    | some q => q
    | none => qZero

/-- Pricing modes of compute_delivery_per_day_for_rows. -/
inductive DMode where
  | modeNone
  | singleIdentical
  | sumShifts
  | singleMismatch
deriving DecidableEq

def COL_B_CLIENT : Nat := 1
def COL_C_TYPE : Nat := 2
def COLUMNS_PER_BLOCK : Nat := 6

def morningStr : List Char := ['m','o','r','n','i','n','g']
def eveningStr : List Char := ['e','v','e','n','i','n','g']
def morningDelivery : List Char := ['m','o','r','n','i','n','g',' ','d','e','l','i','v','e','r','y']
def eveningDelivery : List Char := ['e','v','e','n','i','n','g',' ','d','e','l','i','v','e','r','y']
def deliveryStr : List Char := ['d','e','l','i','v','e','r','y']

/-- The normalized type label of one matching row. -/
def rowType (data : List (List Cell)) (r : Nat) : List Char :=
  let row := data.getD r []
  normName (if COL_C_TYPE < row.length then pyStrip (pyStr (row.getD COL_C_TYPE (.str []))) else [])

/-- The parsed delivery price of one matching row. -/
def rowPrice (data : List (List Cell)) (r : Nat) (dcol : Option Nat) : PyQ :=
  let row := data.getD r []
  parse_float (match dcol with
    | some dc => if dc < row.length then row.getD dc (.str []) else .str []
    | none => .str [])

/-- compute_delivery_per_day_for_rows from the source (lines 218-245):
returns the per-day price and the pricing mode. -/
def compute_delivery_per_day_for_rows (rows : List Nat) (data : List (List Cell))
    (dcol : Option Nat) : PyQ × DMode :=
  if rows = [] then (qZero, .modeNone)
  else
    let types := rows.map (rowType data)
    let prices := rows.map (fun r => rowPrice data r dcol)
    let hasMorning := types.any (fun t => hasSub morningStr t)
    let hasEvening := types.any (fun t => hasSub eveningStr t)
    let allEqual := match types with
      | [] => false
      | t :: ts => ts.all (fun u => u == t)
    if allEqual then (qMaxList prices, .singleIdentical)
    else if hasMorning || hasEvening then
      if types.all (fun t => t == morningDelivery) || types.all (fun t => t == eveningDelivery) then
        (qMaxList prices, .singleIdentical)
      else (qSumList prices, .sumShifts)
    else (qMaxList prices, .singleMismatch)

/-! ### Month-tab locator -/

/-- calendar.month_name for 1..12 (empty otherwise). -/
def monthName (m : Nat) : List Char :=
  match m with
  | 1 => ['J','a','n','u','a','r','y']
  | 2 => ['F','e','b','r','u','a','r','y']
  | 3 => ['M','a','r','c','h']
  | 4 => ['A','p','r','i','l']
  | 5 => ['M','a','y']
  | 6 => ['J','u','n','e']
  | 7 => ['J','u','l','y']
  | 8 => ['A','u','g','u','s','t']
  | 9 => ['S','e','p','t','e','m','b','e','r']
  | 10 => ['O','c','t','o','b','e','r']
  | 11 => ['N','o','v','e','m','b','e','r']
  | 12 => ['D','e','c','e','m','b','e','r']
  | _ => []

def clientlistSpace : List Char := ['c','l','i','e','n','t','l','i','s','t',' ']

/-- First loop's predicate: the lowercased stripped title equals
"clientlist <month>" or "clientlist <month[:3]>" (both lowercased). -/
def titleEqDesired (monthFull t : List Char) : Bool :=
  let d1 := lowerS (clientlistSpace ++ monthFull)
  let d2 := lowerS (clientlistSpace ++ monthFull.take 3)
  pyStrip (lowerS t) == d1 || pyStrip (lowerS t) == d2

/-- Second loop's predicate: the lowercased title starts with "clientlist ". -/
def titleStartsCL (t : List Char) : Bool := leadEq clientlistSpace (lowerS t)

/-- get_clientlist_sheet_title from the source (lines 191-201): one pass
looking for either desired form, then a fallback pass on the prefix. -/
def get_clientlist_sheet_title (titles : List (List Char)) (monthFull : List Char) :
    Option (List Char) :=
  match titles.find? (titleEqDesired monthFull) with
  | some t => some t
  | none => titles.find? titleStartsCL

/-! ### month_span_inclusive -/

/-- Loop body of month_span_inclusive, with fuel (the Python loop walks
months from (y, m) while still at or before (by, bm); the fuel passed by
month_span_inclusive suffices for any real month numbers). -/
def msGo : Nat → Nat → Nat → Nat → Nat → List (Nat × Nat)
  | 0, _, _, _, _ => []
  | fuel + 1, y, m, byy, bmm =>
    if y < byy ∨ (y = byy ∧ m ≤ bmm) then
      (y, m) :: (if m = 12 then msGo fuel (y + 1) 1 byy bmm else msGo fuel y (m + 1) byy bmm)
    else []

def month_span_inclusive (a b : YMD) : List (Nat × Nat) :=
  msGo (12 * b.y + 13) a.y a.m b.y b.m

/-! ### Structure detection and the header-date scan -/

/-- detect_clientlist_structure: scan the header row once; the first cell
that parses as a date fixes the first date column (to_dt is not called any
more after that, so later bad serial cells cannot raise), and every text
cell containing "delivery" updates the delivery column (last one wins).
No date column at all raises ValueError. -/
def detectGo (ty : Nat) : List Cell → Nat → Option Nat → Option Nat →
    Except PyErr (Nat × Option Nat)
  | [], _, fdc, dc =>
    match fdc with
    | some f => .ok (f, dc)
    | none => .error .valueError
  | c :: rest, i, fdc, dc =>
    let dc' :=
      match c with
      | .str s => if hasSub deliveryStr (lowerS s) then some i else dc
      | .num _ => dc
    match fdc with
    | some f => detectGo ty rest (i + 1) (some f) dc'
    | none =>
      match toDtCell ty c with
      | .error e => .error e
      | .ok (some _) => detectGo ty rest (i + 1) (some i) dc'
      | .ok none => detectGo ty rest (i + 1) none dc'

def detect_clientlist_structure (ty : Nat) (row1 : List Cell) : Except PyErr (Nat × Option Nat) :=
  detectGo ty row1 0 none none

/-- Python dict assignment: replace the value at an existing key in place,
or append a new binding. -/
def dIns (l : List (YMD × Nat)) (k : YMD) (v : Nat) : List (YMD × Nat) :=
  match l with
  | [] => [(k, v)]
  | (k', v') :: r => if k' = k then (k, v) :: r else (k', v') :: dIns r k v

def dGet (l : List (YMD × Nat)) (k : YMD) : Option Nat :=
  match l with
  | [] => none
  | (k', v') :: r => if k' = k then some v' else dGet r k

/-- The header-date scan of count_usage (lines 280-291): starting at column
c, step by the block width; stop at the end of the row or at the first cell
that does not parse as a date; record every date's block column and keep
the in-range ones, in order.  Fuel bounds the loop (the wrapper passes
row length + 1, which always suffices since c strictly increases). -/
def scanGo (ty : Nat) (row1 : List Cell) (start stop : YMD) :
    Nat → Nat → List (YMD × Nat) → List YMD →
    Except PyErr (List (YMD × Nat) × List YMD)
  | 0, _, blocks, hdr => .ok (blocks, hdr.reverse)
  | fuel + 1, c, blocks, hdr =>
    if c < row1.length then
      match toDtCell ty (row1.getD c (.str [])) with
      | .error e => .error e
      | .ok none => .ok (blocks, hdr.reverse)
      | .ok (some dt) =>
        scanGo ty row1 start stop fuel (c + COLUMNS_PER_BLOCK) (dIns blocks dt c)
          (if ymdLe start dt ∧ ymdLe dt stop then dt :: hdr else hdr)
    else .ok (blocks, hdr.reverse)

def scanHeaders (ty : Nat) (row1 : List Cell) (start stop : YMD) (c0 : Nat) :
    Except PyErr (List (YMD × Nat) × List YMD) :=
  scanGo ty row1 start stop (row1.length + 1) c0 [] []

/-! ### Per-month processing of count_usage -/

/-- Per-category counters of count_usage's totals dict. -/
structure Totals where
  meal1 : Nat := 0
  meal2 : Nat := 0
  snack : Nat := 0
  j1 : Nat := 0
  j2 : Nat := 0
  brk : Nat := 0
  seafood : Nat := 0
deriving DecidableEq

def addT (a b : Totals) : Totals :=
  ⟨a.meal1 + b.meal1, a.meal2 + b.meal2, a.snack + b.snack,
   a.j1 + b.j1, a.j2 + b.j2, a.brk + b.brk, a.seafood + b.seafood⟩

def seafood1 : List Char := ['s','e','a','f','o','o','d',' ','1']
def seafood2 : List Char := ['s','e','a','f','o','o','d',' ','2']

/-- row[ci] if ci < len(row) else "" (the cell helper in the date loop). -/
def cellAt (row : List Cell) (ci : Nat) : Cell :=
  if ci < row.length then row.getD ci (.str []) else .str []

/-- The six per-block cell checks for one client row at one date block. -/
def rowTally (row : List Cell) (block : Nat) : Totals :=
  let v1 := pyStrip (pyStr (cellAt row block))
  let v2 := pyStrip (pyStr (cellAt row (block + 1)))
  { meal1 := if v1 ≠ [] then 1 else 0
    meal2 := if v2 ≠ [] then 1 else 0
    snack := if pyStrip (pyStr (cellAt row (block + 2))) ≠ [] then 1 else 0
    j1 := if pyStrip (pyStr (cellAt row (block + 3))) ≠ [] then 1 else 0
    j2 := if pyStrip (pyStr (cellAt row (block + 4))) ≠ [] then 1 else 0
    brk := if pyStrip (pyStr (cellAt row (block + 5))) ≠ [] then 1 else 0
    seafood := (if v1 ≠ [] ∧ normName v1 = seafood1 then 1 else 0)
      + (if v2 ≠ [] ∧ normName v2 = seafood2 then 1 else 0) }

def tallyRows (data : List (List Cell)) (rows : List Nat) (block : Nat) : Totals :=
  rows.foldl (fun acc r => addT acc (rowTally (data.getD r []) block)) {}

def activitySum (t : Totals) : Nat := t.meal1 + t.meal2 + t.snack + t.j1 + t.j2 + t.brk

/-- The per-date loop of count_usage (lines 305-354): each confirmed date
with a known block and a nonempty client row set is counted as active or
paused and contributes its tallies; otherwise it is skipped entirely. -/
def dateLoop (data : List (List Cell)) (rows : List Nat) (blocks : List (YMD × Nat)) :
    List YMD → Nat × List YMD × Totals
  | [] => (0, [], {})
  | dt :: ds =>
    let rest := dateLoop data rows blocks ds
    match dGet blocks dt with
    | none => rest
    | some block =>
      if rows = [] then rest
      else
        let t := tallyRows data rows block
        if 0 < activitySum t then (rest.1 + 1, rest.2.1, addT t rest.2.2)
        else (rest.1, dt :: rest.2.1, addT t rest.2.2)

/-- Client-name of each data row as the rows_by_client loop sees it
(empty for short rows); a non-falsy numeric name cell raises. -/
def rowNames : List (List Cell) → Except PyErr (List (List Char))
  | [] => .ok []
  | row :: rest =>
    match (if COL_B_CLIENT < row.length then normCell (row.getD COL_B_CLIENT (.str [])) else .ok []) with
    | .error e => .error e
    | .ok nm =>
      match rowNames rest with
      | .error e => .error e
      | .ok others => .ok (nm :: others)

/-- Indices of the client's rows: rows_by_client only keys nonempty names,
so an empty client key never matches. -/
def clientRowIdx (names : List (List Char)) (key : List Char) : List Nat :=
  if key = [] then []
  else (List.range names.length).filter (fun r => names.getD r [] == key)

/-- Everything count_usage computes for one month that has a usable sheet. -/
structure MRes where
  clientRows : List Nat
  headerDates : List YMD
  dateBlocks : List (YMD × Nat)
  perDay : PyQ
  mode : DMode
  mAct : Nat
  mPaused : List YMD
  mTotals : Totals
deriving DecidableEq

/-- One iteration of count_usage's month loop: locate the month tab, fetch
its grid, build the client row set, detect structure, scan header dates,
resolve delivery pricing and run the per-date loop.  none = the month was
skipped (no tab, or empty grid). -/
def processMonth (ty : Nat) (titles : List (List Char)) (fetch : List Char → List (List Cell))
    (key : List Char) (start stop : YMD) (ym : Nat × Nat) : Except PyErr (Option MRes) :=
  match get_clientlist_sheet_title titles (monthName ym.2) with
  | none => .ok none
  | some sheetTitle =>
    let data := fetch sheetTitle
    if data = [] then .ok none
    else
      match rowNames data with
      | .error e => .error e
      | .ok names =>
        let rows := clientRowIdx names key
        let row1 := data.getD 0 []
        match detect_clientlist_structure ty row1 with
        | .error e => .error e
        | .ok det =>
          match scanHeaders ty row1 start stop det.1 with
          | .error e => .error e
          | .ok scanned =>
            let pd := compute_delivery_per_day_for_rows rows data det.2
            let dl := dateLoop data rows scanned.1 scanned.2
            .ok (some ⟨rows, scanned.2, scanned.1, pd.1, pd.2, dl.1, dl.2.1, dl.2.2⟩)

/-- Accumulator state of count_usage's month loop. -/
structure CState where
  t : Totals
  totalD : Nat
  activeD : Nat
  paused : List YMD
  lastDel : PyQ
deriving DecidableEq

def cuStep (st : CState) (mr : MRes) : CState :=
  { t := addT st.t mr.mTotals
    totalD := st.totalD + mr.headerDates.length
    activeD := st.activeD + mr.mAct
    paused := st.paused ++ mr.mPaused
    lastDel := if qIsZero mr.perDay then st.lastDel else mr.perDay }

def cuGo (ty : Nat) (titles : List (List Char)) (fetch : List Char → List (List Cell))
    (key : List Char) (start stop : YMD) :
    List (Nat × Nat) → CState → Except PyErr CState
  | [], st => .ok st
  | ym :: rest, st =>
    match processMonth ty titles fetch key start stop ym with
    | .error e => .error e
    | .ok none => cuGo ty titles fetch key start stop rest st
    | .ok (some mr) => cuGo ty titles fetch key start stop rest (cuStep st mr)

/-- The aggregate count_usage returns. -/
structure Usage where
  totals : Totals
  mealsTotal : Nat
  juicesTotal : Nat
  activeDays : Nat
  pausedDays : Nat
  totalDays : Nat
  pausedDates : List YMD
  lastPerDayDelivery : PyQ
deriving DecidableEq

/-- count_usage from the source (lines 247-359).  ty is date.today().year,
titles the spreadsheet's sheet titles, fetch the per-title grid contents.
paused_days = max(0, total - active) is natural-number subtraction. -/
def count_usage (ty : Nat) (titles : List (List Char)) (fetch : List Char → List (List Cell))
    (start stop : YMD) (clientName : List Char) : Except PyErr Usage :=
  match cuGo ty titles fetch (normName clientName) start stop (month_span_inclusive start stop)
    ⟨{}, 0, 0, [], qZero⟩ with
  | .error e => .error e
  | .ok st =>
    .ok { totals := st.t
          mealsTotal := st.t.meal1 + st.t.meal2
          juicesTotal := st.t.j1 + st.t.j2
          activeDays := st.activeD
          pausedDays := st.totalD - st.activeD
          totalDays := st.totalD
          pausedDates := st.paused
          lastPerDayDelivery := st.lastDel }

/-- The invoice's delivery line with untouched admin fields (lines 658-661
with the session defaults set by compute_from_range lines 536-537):
delivery days default to the fetched active_days and the rate to the
learned per-day delivery price, so the amount is round(active × learned). -/
def delivery_amount_default (u : Usage) : Int :=
  pyRound (qMulNat u.lastPerDayDelivery u.activeDays)

/-! ### Next-cycle planner -/

/-- The while loop of next_service_calendar_dates with fuel: starting the
day after after_day, append every non-Sunday day until `needed` dates are
collected.  Python dates are bounded by date(9999, 12, 31): each iteration's
`cur += timedelta(days=1)` raises OverflowError when cur is already date.max
(the appended local list is discarded by the exception, so checking the bound
before the pure append is observationally identical).  none = fuel exhausted
(the adequacy theorem shows the wrapper's fuel always suffices, i.e. the
source's unbounded loop terminates — by returning or by raising). -/
def nsLoop (fuel : Nat) (cur : Int) (out : List Int) (needed : Nat) :
    Option (Except PyErr (List Int)) :=
  if needed ≤ out.length then some (.ok out.reverse)
  else
    match fuel with
    | 0 => none
    | fuel + 1 =>
      if maxOrd ≤ cur then some (.error .overflowError)
      else nsLoop fuel (cur + 1) (if pyWd cur ≠ 6 then cur :: out else out) needed

/-- next_service_calendar_dates: `cur = after_day + timedelta(days=1)` itself
raises OverflowError when after_day is date.max, before the loop runs. -/
def next_service_calendar_dates (afterDay : Int) (needed : Nat) :
    Option (Except PyErr (List Int)) :=
  if maxOrd ≤ afterDay then some (.error .overflowError)
  else nsLoop (2 * needed + 2) (afterDay + 1) [] needed

/-- Reference stream: the first n non-Sunday ordinals at or after cur. -/
def refNS : Int → Nat → List Int
  | _, 0 => []
  | cur, n + 1 =>
    if pyWd cur = 6 then (cur + 1) :: refNS (cur + 2) n else cur :: refNS (cur + 1) n

/-- compute_from_range's planner slice (lines 519-525): the billing window
is future_dates[paused : paused + 26]. -/
def BILLING_LEN : Nat := 26

def billDatesOf (prevEnd : Int) (paused : Nat) : Option (Except PyErr (List Int)) :=
  (next_service_calendar_dates prevEnd (paused + BILLING_LEN)).map
    (fun r => r.map (fun l => (l.drop paused).take BILLING_LEN))

/-- The adjustment dates the UI lists (line 602). -/
def adjustDatesOf (prevEnd : Int) (paused : Nat) : Option (Except PyErr (List Int)) :=
  next_service_calendar_dates prevEnd paused

/-- next_start = bill_dates[0] if bill_dates else None. -/
def nextStartOf (prevEnd : Int) (paused : Nat) : Option (Except PyErr (Option Int)) :=
  (billDatesOf prevEnd paused).map (fun r => r.map List.head?)

/-- next_end = bill_dates[-1] if bill_dates else None. -/
def nextEndOf (prevEnd : Int) (paused : Nat) : Option (Except PyErr (Option Int)) :=
  (billDatesOf prevEnd paused).map (fun r => r.map List.getLast?)

/-! ### Billing-cycle ledger accessor -/

def clientHdr : List Char := ['c','l','i','e','n','t']
def startHdr : List Char := ['s','t','a','r','t']
def endHdr : List Char := ['e','n','d']

/-- The header comprehension [x.strip().lower() for x in vals[0]]:
a numeric header cell raises AttributeError. -/
def headerCells : List Cell → Except PyErr (List (List Char))
  | [] => .ok []
  | .num _ :: _ => .error .attrError
  | .str s :: rest =>
    match headerCells rest with
    | .error e => .error e
    | .ok others => .ok (lowerS (pyStrip s) :: others)

/-- list.index: position of the first equal element. -/
def idxOfL (target : List Char) : List (List Char) → Option Nat
  | [] => none
  | h :: t => if h == target then some 0 else (idxOfL target t).map (· + 1)

/-- The matching loop of get_prev_cycle_for_client: keep the last row
(with its enumerate index, starting at 1) whose client cell normalizes to
the key; rows too short to hold all three columns are skipped. -/
def gpcGo (ci si ei : Nat) (key : List Char) :
    List (List Cell) → Nat → Option (List Cell × Nat) →
    Except PyErr (Option (List Cell × Nat))
  | [], _, acc => .ok acc
  | r :: rest, idx, acc =>
    if r.length ≤ max ci (max si ei) then gpcGo ci si ei key rest (idx + 1) acc
    else
      match normCell (r.getD ci (.str [])) with
      | .error e => .error e
      | .ok nm => gpcGo ci si ei key rest (idx + 1) (if nm = key then some (r, idx) else acc)

/-- get_prev_cycle_for_client from the source (lines 370-389): header
lookup, last-match scan, then parse Start/End of the winning row; any
outcome short of a fully parsed last match is the (None, None, None)
triple.  The returned row number is the 1-based sheet row (index + 1). -/
def get_prev_cycle_for_client (ty : Nat) (vals : List (List Cell)) (clientName : List Char) :
    Except PyErr (Option YMD × Option YMD × Option Nat) :=
  if vals = [] ∨ vals.length < 2 then .ok (none, none, none)
  else
    match headerCells (vals.getD 0 []) with
    | .error e => .error e
    | .ok headers =>
      match idxOfL clientHdr headers, idxOfL startHdr headers, idxOfL endHdr headers with
      | some ci, some si, some ei =>
        match gpcGo ci si ei (normName clientName) (vals.drop 1) 1 none with
        | .error e => .error e
        | .ok none => .ok (none, none, none)
        | .ok (some (r, idx)) =>
          match toDtCell ty (r.getD si (.str [])), toDtCell ty (r.getD ei (.str [])) with
          | .error e, _ => .error e
          | .ok _, .error e => .error e
          | .ok (some s), .ok (some e) => .ok (some s, some e, some (idx + 1))
          | .ok _, .ok _ => .ok (none, none, none)
      | _, _, _ => .ok (none, none, none)

/-! ### Output formatting (dtstr and the other supported formats) -/

/-- Two-digit zero-padded decimal (strftime %d, %m, %y). -/
def pad2 (n : Nat) : List Char := [digitChar (n / 10), digitChar (n % 10)]

/-- Four-digit zero-padded decimal (strftime %Y on in-range years). -/
def year4 (n : Nat) : List Char := pad2 (n / 100) ++ pad2 (n % 100)

/-- strftime %b month abbreviation. -/
def mon3 (m : Nat) : List Char :=
  match m with
  | 1 => ['J','a','n'] | 2 => ['F','e','b'] | 3 => ['M','a','r'] | 4 => ['A','p','r']
  | 5 => ['M','a','y'] | 6 => ['J','u','n'] | 7 => ['J','u','l'] | 8 => ['A','u','g']
  | 9 => ['S','e','p'] | 10 => ['O','c','t'] | 11 => ['N','o','v'] | 12 => ['D','e','c']
  | _ => []

/-- The seven text formats the parser supports, as output formats. -/
inductive OutFmt where
  | ddMonY2   -- DD-Mon-YY
  | ddMonY4   -- DD-Mon-YYYY
  | ddSlashY4 -- DD/MM/YYYY
  | ddSlashY2 -- DD/MM/YY
  | isoY4     -- YYYY-MM-DD
  | ddSpMonY4 -- DD Mon YYYY
  | ddSpMonY2 -- DD Mon YY
deriving DecidableEq

/-- Modelled from the spec: strftime output in each format named by the
parser's format list (the source itself only has the DD-Mon-YYYY formatter,
dtstr; the other six renderings follow the strftime semantics the spec's
format names denote, with zero-padded two-digit fields). -/
def fmtYMD : OutFmt → YMD → List Char
  | .ddMonY2, a => pad2 a.d ++ '-' :: (mon3 a.m ++ '-' :: pad2 (a.y % 100))
  | .ddMonY4, a => pad2 a.d ++ '-' :: (mon3 a.m ++ '-' :: year4 a.y)
  | .ddSlashY4, a => pad2 a.d ++ '/' :: (pad2 a.m ++ '/' :: year4 a.y)
  | .ddSlashY2, a => pad2 a.d ++ '/' :: (pad2 a.m ++ '/' :: pad2 (a.y % 100))
  | .isoY4, a => year4 a.y ++ '-' :: (pad2 a.m ++ '-' :: pad2 a.d)
  | .ddSpMonY4, a => pad2 a.d ++ ' ' :: (mon3 a.m ++ ' ' :: year4 a.y)
  | .ddSpMonY2, a => pad2 a.d ++ ' ' :: (mon3 a.m ++ ' ' :: pad2 (a.y % 100))

/-- dtstr from the source: strftime("%d-%b-%Y"). -/
def dtstr (a : YMD) : List Char := fmtYMD .ddMonY4 a

/-! ### Spec-side projections used to state the claims -/

/-- The per-month results of count_usage's month loop, in month order. -/
def monthsGo (ty : Nat) (titles : List (List Char)) (fetch : List Char → List (List Cell))
    (key : List Char) (start stop : YMD) : List (Nat × Nat) → Except PyErr (List (Option MRes))
  | [] => .ok []
  | ym :: rest =>
    match processMonth ty titles fetch key start stop ym with
    | .error e => .error e
    | .ok om =>
      match monthsGo ty titles fetch key start stop rest with
      | .error e => .error e
      | .ok ms => .ok (om :: ms)

def monthsData (ty : Nat) (titles : List (List Char)) (fetch : List Char → List (List Cell))
    (key : List Char) (start stop : YMD) : Except PyErr (List (Option MRes)) :=
  monthsGo ty titles fetch key start stop (month_span_inclusive start stop)

/-- The delivery rate count_usage learns: the last month whose resolved
per-day price is truthy (nonzero) wins; months without a sheet or with a
zero price leave it unchanged. -/
def lastTruthyOf (ms : List (Option MRes)) : PyQ :=
  ms.foldl (fun acc om =>
    match om with
    | some mr => if qIsZero mr.perDay then acc else mr.perDay
    | none => acc) qZero

def sumActiveOf (ms : List (Option MRes)) : Nat :=
  ms.foldl (fun acc om =>
    match om with
    | some mr => acc + mr.mAct
    | none => acc) 0

/-- Modelled from the spec: "Delivery cost contribution for the month =
per_day_price × active_days_this_month; summed across months" — the
per-month sum the spec claims, for comparison with what the code computes. -/
def specDeliverySum (ms : List (Option MRes)) : PyQ :=
  ms.foldl (fun acc om =>
    match om with
    | some mr => qAdd acc (qMulNat mr.perDay mr.mAct)
    | none => acc) qZero

/-- Decidable side condition for the paused-dates bookkeeping: no month
contributes confirmed dates while the client has no rows in its sheet. -/
def noSkippedDates (ty : Nat) (titles : List (List Char))
    (fetch : List Char → List (List Cell)) (key : List Char) (start stop : YMD) : Bool :=
  (month_span_inclusive start stop).all fun ym =>
    match processMonth ty titles fetch key start stop ym with
    | .ok (some mr) => mr.headerDates.isEmpty || !mr.clientRows.isEmpty
    | _ => true

/-- The cells the header scan can visit: every block-boundary cell from c
on, while inside the row.  Same fuel convention as scanGo. -/
def blockCellsGo (row : List Cell) : Nat → Nat → List Cell
  | 0, _ => []
  | fuel + 1, c =>
    if c < row.length then row.getD c (.str []) :: blockCellsGo row fuel (c + COLUMNS_PER_BLOCK)
    else []

def blockCells (row : List Cell) (c0 : Nat) : List Cell :=
  blockCellsGo row (row.length + 1) c0

/-- The parse outcome of a cell with errors flattened to "no date". -/
def toDtOpt (ty : Nat) (c : Cell) : Option YMD :=
  match toDtCell ty c with
  | .ok o => o
  | .error _ => none

def inRangeB (start stop dt : YMD) : Bool := ymdLe start dt && ymdLe dt stop

/-- Client name of a ledger row for the match-list specification (numeric
cells excluded by the ledgerNamesOk side condition; 0 is falsy → empty). -/
def normCellD : Cell → List Char
  | .num _ => []
  | .str s => normName s

/-- No ledger row that is long enough to be considered has a client cell
that norm_name would crash on (a nonzero number). -/
def ledgerNamesOk (vals : List (List Cell)) (ci si ei : Nat) : Bool :=
  (vals.drop 1).all fun r =>
    decide (r.length ≤ max ci (max si ei)) ||
      (match r.getD ci (.str []) with
       | .str _ => true
       | .num n => n = 0)

/-- The rows (with their enumerate index, starting at 1) that match the
client key, in file order. -/
def mrlGo (ci si ei : Nat) (key : List Char) : List (List Cell) → Nat → List (List Cell × Nat)
  | [], _ => []
  | r :: rest, idx =>
    if r.length ≤ max ci (max si ei) then mrlGo ci si ei key rest (idx + 1)
    else if normCellD (r.getD ci (.str [])) == key then
      (r, idx) :: mrlGo ci si ei key rest (idx + 1)
    else mrlGo ci si ei key rest (idx + 1)

def matchRowsLedger (vals : List (List Cell)) (ci si ei : Nat) (key : List Char) :
    List (List Cell × Nat) :=
  mrlGo ci si ei key (vals.drop 1) 1

/-- The month loop as a fold over the per-month results. -/
def cuFold (st : CState) (ms : List (Option MRes)) : CState :=
  ms.foldl (fun s om => match om with | none => s | some mr => cuStep s mr) st

/-! ## Theorems -/

theorem firstSome_eq_none {α β : Type} (f : α → Option β) (l : List α)
    (h : ∀ a ∈ l, f a = none) : firstSome f l = none := by
  induction l with
  | nil => rfl
  | cons a as ih =>
    simp only [firstSome]
    rw [h a (by simp)]
    exact ih (fun x hx => h x (by simp [hx]))

theorem pyWd_succ (o : Int) : pyWd (o + 1) = (pyWd o + 1) % 7 := by
  unfold pyWd
  omega

theorem pyWd_after_sunday (o : Int) (h : pyWd o = 6) : pyWd (o + 1) = 0 := by
  rw [pyWd_succ, h]
  decide

/-- The fuel-bounded loop agrees with the non-Sunday reference stream
whenever the fuel is at least twice the number of dates still needed. -/
theorem nsLoop_eq_refNS (k : Nat) : ∀ (fuel : Nat) (cur : Int) (out : List Int) (needed : Nat),
    needed = out.length + k → 2 * k ≤ fuel → cur + 2 * k ≤ maxOrd →
    nsLoop fuel cur out needed = some (.ok (out.reverse ++ refNS cur k)) := by
  induction k with
  | zero =>
    intro fuel cur out needed h _ _
    rw [nsLoop.eq_def]
    simp [refNS, h]
  | succ k ih =>
    intro fuel cur out needed h hf hb
    rw [nsLoop.eq_def]
    rw [if_neg (by omega)]
    match fuel, hf with
    | fuel + 1, hf =>
      dsimp only
      rw [if_neg (show ¬ maxOrd ≤ cur by omega)]
      by_cases hw : pyWd cur = 6
      · simp only [hw, ne_eq, not_true_eq_false, if_false]
        rw [nsLoop.eq_def, if_neg (show ¬ needed ≤ out.length by omega)]
        match fuel, hf with
        | fuel + 1, hf =>
          dsimp only
          rw [if_neg (show ¬ maxOrd ≤ cur + 1 by omega)]
          have hw2 : pyWd (cur + 1) ≠ 6 := by rw [pyWd_after_sunday cur hw]; decide
          simp only [hw2, ne_eq, not_false_eq_true, if_true]
          have hc : cur + 1 + 1 = cur + 2 := by ring
          rw [hc, ih fuel (cur + 2) ((cur + 1) :: out) needed (by simp [h]; omega) (by omega)
            (by omega)]
          simp [refNS, hw]
      · simp only [hw, ne_eq, not_false_eq_true, if_true]
        rw [ih fuel (cur + 1) (cur :: out) needed (by simp [h]; omega) (by omega) (by omega)]
        simp [refNS, hw]

theorem refNS_length (n : Nat) : ∀ cur : Int, (refNS cur n).length = n := by
  induction n with
  | zero => intro cur; rfl
  | succ n ih => intro cur; unfold refNS; split <;> simp [ih]

theorem refNS_ge (n : Nat) : ∀ (cur : Int) (x : Int), x ∈ refNS cur n → cur ≤ x := by
  induction n with
  | zero => intro cur x hx; simp [refNS] at hx
  | succ n ih =>
    intro cur x hx
    unfold refNS at hx
    split at hx <;> rcases List.mem_cons.mp hx with h | h
    · omega
    · have := ih (cur + 2) x h; omega
    · omega
    · have := ih (cur + 1) x h; omega

theorem refNS_sorted (n : Nat) : ∀ cur : Int, List.Pairwise (· < ·) (refNS cur n) := by
  induction n with
  | zero => intro cur; simp [refNS]
  | succ n ih =>
    intro cur
    unfold refNS
    split <;> rw [List.pairwise_cons] <;> constructor
    · intro x hx; have := refNS_ge n (cur + 2) x hx; omega
    · exact ih (cur + 2)
    · intro x hx; have := refNS_ge n (cur + 1) x hx; omega
    · exact ih (cur + 1)

theorem refNS_no_sunday (n : Nat) : ∀ (cur : Int) (x : Int), x ∈ refNS cur n → pyWd x ≠ 6 := by
  induction n with
  | zero => intro cur x hx; simp [refNS] at hx
  | succ n ih =>
    intro cur x hx
    unfold refNS at hx
    split at hx
    · rcases List.mem_cons.mp hx with h | h
      · subst h
        rename_i hw
        rw [pyWd_after_sunday cur hw]
        decide
      · exact ih (cur + 2) x h
    · rcases List.mem_cons.mp hx with h | h
      · subst h; assumption
      · exact ih (cur + 1) x h

theorem refNS_take (n : Nat) : ∀ (k : Nat) (cur : Int), refNS cur n = (refNS cur (n + k)).take n := by
  induction n with
  | zero => intro k cur; simp [refNS]
  | succ n ih =>
    intro k cur
    have h : n + 1 + k = (n + k) + 1 := by omega
    rw [h]
    unfold refNS
    split <;> simp [List.take] <;> exact ih k _

/-- C10: the while loop of next_service_calendar_dates terminates on every
input only in the sense that it either completes or raises: whenever the
scanned day range stays within Python's date bound (afterDay + 1 + 2*needed
≤ date(9999,12,31)'s ordinal), every sufficiently large fuel bound returns
the same completed list of exactly `needed` dates, the empty list for
needed = 0.  The unconditional claim is false: close enough to date.max the
source raises OverflowError instead of returning `needed` dates — even
needed = 0 raises when after_day = date.max (see the counterexample). -/
theorem c10_planner_total (afterDay : Int) (needed : Nat)
    (hb : afterDay + 1 + 2 * needed ≤ maxOrd) :
    ∃ l : List Int,
      (∀ fuel : Nat, 2 * needed ≤ fuel → nsLoop fuel (afterDay + 1) [] needed = some (.ok l))
      ∧ next_service_calendar_dates afterDay needed = some (.ok l)
      ∧ l.length = needed
      ∧ (needed = 0 → l = []) := by
  refine ⟨refNS (afterDay + 1) needed, ?_, ?_, ?_, ?_⟩
  · intro fuel hf
    have := nsLoop_eq_refNS needed fuel (afterDay + 1) [] needed (by simp) hf (by omega)
    simpa using this
  · have := nsLoop_eq_refNS needed (2 * needed + 2) (afterDay + 1) [] needed (by simp) (by omega)
      (by omega)
    unfold next_service_calendar_dates
    rw [if_neg (by omega)]
    simpa using this
  · exact refNS_length needed (afterDay + 1)
  · intro h; subst h; rfl

/-- C10 counterexample: for after_day = date(9999, 12, 31) the very first
statement `cur = after_day + timedelta(days=1)` overflows, so even
needed = 0 raises OverflowError instead of returning the empty list. -/
theorem c10_planner_cex :
    next_service_calendar_dates maxOrd 0 = some (.error .overflowError)
      ∧ ∀ l : List Int, next_service_calendar_dates maxOrd 0 ≠ some (.ok l) := by
  constructor
  · rfl
  · intro l h
    rw [show next_service_calendar_dates maxOrd 0 = some (.error .overflowError) from rfl] at h
    exact Except.noConfusion (Option.some.inj h)

theorem c10_planner_total_witness :
    ((739198 : Int) + 1 + 2 * (3 : Nat) ≤ maxOrd)
      ∧ ∃ l : List Int,
        (∀ fuel : Nat, 2 * 3 ≤ fuel → nsLoop fuel ((739198 : Int) + 1) [] 3 = some (.ok l))
        ∧ next_service_calendar_dates 739198 3 = some (.ok l)
        ∧ l.length = 3
        ∧ (3 = 0 → l = []) :=
  ⟨by decide, c10_planner_total 739198 3 (by decide)⟩

theorem refNS_head_first (after : Int) (n : Nat) :
    ∃ h0, (refNS (after + 1) (n + 1)).head? = some h0 ∧ after < h0 ∧ pyWd h0 ≠ 6
      ∧ ∀ z : Int, after < z → z < h0 → pyWd z = 6 := by
  unfold refNS
  by_cases hw : pyWd (after + 1) = 6
  · refine ⟨after + 1 + 1, by simp [hw], by omega, ?_, ?_⟩
    · rw [pyWd_after_sunday _ hw]; decide
    · intro z h1 h2
      have hz : z = after + 1 := by omega
      subst hz; exact hw
  · refine ⟨after + 1, by simp [hw], by omega, hw, ?_⟩
    intro z h1 h2
    omega

/-- C4: whenever the planned window stays within Python's date bound
(prevEnd + 1 + 2*(paused + 26) ≤ date(9999,12,31)'s ordinal), the planned
adjustment dates (length = paused) followed by the billing dates
(length 26) form a strictly increasing run of non-Sunday dates strictly
after after_date, whose first element is the first non-Sunday date after
after_date; next_start and next_end are the first and last billing dates,
and next_start sits exactly `paused` places into the combined run.  For
after_date too close to date.max no such window exists: the source raises
OverflowError instead (see the counterexample), so the claim's "for every
after_date" must be restricted to windows that fit below date.max. -/
theorem c4_next_cycle (prevEnd : Int) (paused : Nat)
    (hb : prevEnd + 1 + 2 * ((paused + BILLING_LEN : Nat)) ≤ maxOrd) :
    ∃ adj bill : List Int,
      adjustDatesOf prevEnd paused = some (.ok adj)
      ∧ billDatesOf prevEnd paused = some (.ok bill)
      ∧ adj.length = paused
      ∧ bill.length = BILLING_LEN
      ∧ List.Pairwise (· < ·) (adj ++ bill)
      ∧ (∀ x ∈ adj ++ bill, pyWd x ≠ 6)
      ∧ (∀ x ∈ adj ++ bill, prevEnd < x)
      ∧ (∃ h0, (adj ++ bill).head? = some h0 ∧ prevEnd < h0 ∧ pyWd h0 ≠ 6
          ∧ ∀ z : Int, prevEnd < z → z < h0 → pyWd z = 6)
      ∧ nextStartOf prevEnd paused = some (.ok bill.head?)
      ∧ nextEndOf prevEnd paused = some (.ok bill.getLast?)
      ∧ nextStartOf prevEnd paused = some (.ok ((adj ++ bill)[paused]?)) := by
  have hfut : next_service_calendar_dates prevEnd (paused + BILLING_LEN)
      = some (.ok (refNS (prevEnd + 1) (paused + BILLING_LEN))) := by
    have := nsLoop_eq_refNS (paused + BILLING_LEN) (2 * (paused + BILLING_LEN) + 2)
      (prevEnd + 1) [] (paused + BILLING_LEN) (by simp) (by omega) (by omega)
    unfold next_service_calendar_dates
    rw [if_neg (by omega)]
    simpa using this
  have hadj : next_service_calendar_dates prevEnd paused
      = some (.ok (refNS (prevEnd + 1) paused)) := by
    have := nsLoop_eq_refNS paused (2 * paused + 2) (prevEnd + 1) [] paused (by simp) (by omega)
      (by omega)
    unfold next_service_calendar_dates
    rw [if_neg (by omega)]
    simpa using this
  set future := refNS (prevEnd + 1) (paused + BILLING_LEN) with hfdef
  have hlen : future.length = paused + BILLING_LEN := refNS_length _ _
  have hdroplen : (future.drop paused).length = BILLING_LEN := by
    simp [hlen]
  have hbill : billDatesOf prevEnd paused = some (.ok (future.drop paused)) := by
    unfold billDatesOf
    rw [hfut]
    show some (Except.ok (List.take BILLING_LEN (List.drop paused future)))
        = some (Except.ok (List.drop paused future))
    rw [List.take_of_length_le (le_of_eq hdroplen)]
  have htake : refNS (prevEnd + 1) paused = future.take paused := refNS_take paused BILLING_LEN _
  have happ : refNS (prevEnd + 1) paused ++ future.drop paused = future := by
    rw [htake, List.take_append_drop]
  refine ⟨refNS (prevEnd + 1) paused, future.drop paused, ?_, hbill, refNS_length _ _, hdroplen,
    ?_, ?_, ?_, ?_, ?_, ?_, ?_⟩
  · exact hadj
  · rw [happ]; exact refNS_sorted _ _
  · rw [happ]; exact fun x hx => refNS_no_sunday _ _ x hx
  · rw [happ]; intro x hx; have := refNS_ge _ _ x hx; omega
  · rw [happ]
    have h26 : paused + BILLING_LEN = (paused + 25) + 1 := by unfold BILLING_LEN; omega
    rw [hfdef, h26]
    exact refNS_head_first prevEnd (paused + 25)
  · unfold nextStartOf
    rw [hbill]
    rfl
  · unfold nextEndOf
    rw [hbill]
    rfl
  · rw [happ]
    unfold nextStartOf
    rw [hbill]
    show some (Except.ok (List.drop paused future).head?) = some (Except.ok future[paused]?)
    rw [← List.head?_drop]

/-- C4 counterexample: with prev_end = 15 December 9999 (a valid ledger date)
and no paused days, the 26 billing dates do not fit below date(9999,12,31):
the planner's loop overflows mid-stream, so compute_from_range raises
OverflowError and no billing window exists. -/
theorem c4_next_cycle_cex :
    billDatesOf (pyToOrd ⟨9999, 12, 15⟩) 0 = some (.error .overflowError)
      ∧ ∀ bill : List Int, billDatesOf (pyToOrd ⟨9999, 12, 15⟩) 0 ≠ some (.ok bill) := by
  constructor
  · rfl
  · intro bill h
    rw [show billDatesOf (pyToOrd ⟨9999, 12, 15⟩) 0 = some (.error .overflowError) from rfl] at h
    exact Except.noConfusion (Option.some.inj h)

theorem c4_next_cycle_witness :
    ((739198 : Int) + 1 + 2 * (((2 : Nat) + BILLING_LEN : Nat)) ≤ maxOrd)
      ∧ ∃ adj bill : List Int,
        adjustDatesOf 739198 2 = some (.ok adj)
        ∧ billDatesOf 739198 2 = some (.ok bill)
        ∧ adj.length = 2
        ∧ bill.length = BILLING_LEN
        ∧ List.Pairwise (· < ·) (adj ++ bill)
        ∧ (∀ x ∈ adj ++ bill, pyWd x ≠ 6)
        ∧ (∀ x ∈ adj ++ bill, (739198 : Int) < x)
        ∧ (∃ h0, (adj ++ bill).head? = some h0 ∧ (739198 : Int) < h0 ∧ pyWd h0 ≠ 6
            ∧ ∀ z : Int, (739198 : Int) < z → z < h0 → pyWd z = 6)
        ∧ nextStartOf 739198 2 = some (.ok bill.head?)
        ∧ nextEndOf 739198 2 = some (.ok bill.getLast?)
        ∧ nextStartOf 739198 2 = some (.ok ((adj ++ bill)[2]?)) :=
  ⟨by decide, c4_next_cycle 739198 2 (by decide)⟩

/-- C5: the delivery pricing resolver returns mode none (with price 0)
exactly when the matching row set is empty; for a nonempty row set the
returned mode is exactly one of single_identical, sum_shifts,
single_mismatch — never none. -/
theorem c5_pricing_modes (rows : List Nat) (data : List (List Cell)) (dcol : Option Nat) :
    ((compute_delivery_per_day_for_rows rows data dcol).2 = DMode.modeNone ↔ rows = [])
    ∧ (rows = [] → (compute_delivery_per_day_for_rows rows data dcol).1 = qZero)
    ∧ (rows ≠ [] →
        ((compute_delivery_per_day_for_rows rows data dcol).2 = DMode.singleIdentical
          ∨ (compute_delivery_per_day_for_rows rows data dcol).2 = DMode.sumShifts
          ∨ (compute_delivery_per_day_for_rows rows data dcol).2 = DMode.singleMismatch)
        ∧ (compute_delivery_per_day_for_rows rows data dcol).2 ≠ DMode.modeNone) := by
  unfold compute_delivery_per_day_for_rows
  by_cases h : rows = []
  · simp [h]
  · simp only [h, if_false]
    refine ⟨?_, ?_, ?_⟩
    · constructor
      · intro hc
        split at hc
        · cases hc
        · split at hc
          · split at hc <;> cases hc
          · cases hc
      · intro hc; exact hc.elim
    · intro hc; exact hc.elim
    · intro _
      constructor
      · split
        · left; rfl
        · split
          · split
            · left; rfl
            · right; left; rfl
          · right; right; rfl
      · split
        · simp
        · split
          · split <;> simp
          · simp

theorem c5_pricing_modes_witness :
    ((compute_delivery_per_day_for_rows [1] [] none).2 = DMode.singleIdentical
      ∨ (compute_delivery_per_day_for_rows [1] [] none).2 = DMode.sumShifts
      ∨ (compute_delivery_per_day_for_rows [1] [] none).2 = DMode.singleMismatch)
    ∧ (compute_delivery_per_day_for_rows [1] [] none).2 ≠ DMode.modeNone :=
  (c5_pricing_modes [1] [] none).2.2 (by decide)

theorem find?_first_index {α : Type} (p : α → Bool) :
    ∀ (l : List α) (i : Nat) (h : i < l.length), p (l.get ⟨i, h⟩) = true →
      ∃ j, ∃ hj : j < l.length, j ≤ i ∧ l.find? p = some (l.get ⟨j, hj⟩)
        ∧ p (l.get ⟨j, hj⟩) = true := by
  intro l
  induction l with
  | nil => intro i h; simp at h
  | cons a as ih =>
    intro i h hp
    by_cases ha : p a = true
    · exact ⟨0, by simp, by omega, by simp [List.find?_cons, ha], ha⟩
    · match i, h, hp with
      | 0, h, hp => exact absurd hp ha
      | i + 1, h, hp =>
        obtain ⟨j, hj, hle, hf, hpj⟩ := ih i (by simpa using h) (by simpa using hp)
        refine ⟨j + 1, by simpa using hj, by omega, ?_, by simpa using hpj⟩
        rw [List.find?_cons_of_neg _ ha]
        simpa using hf

/-- C9 (amended): the month-tab lookup checks both desired forms
("clientlist <full month>" and "clientlist <3-letter abbreviation>",
case-insensitively on stripped titles) in a single pass with no preference
between the two forms, returning the first title matching either; only
when no title matches either form does it return the first title whose
lowercasing starts with "clientlist "; it returns none exactly when no
title matches any of these. -/
theorem c9_month_tab_lookup (titles : List (List Char)) (monthFull : List Char) :
    (get_clientlist_sheet_title titles monthFull = none ↔
      ∀ t ∈ titles, titleEqDesired monthFull t = false ∧ titleStartsCL t = false)
    ∧ (∀ t, get_clientlist_sheet_title titles monthFull = some t →
        t ∈ titles ∧ (titleEqDesired monthFull t = true ∨ titleStartsCL t = true))
    ∧ ((∀ t ∈ titles, titleEqDesired monthFull t = false) →
        ∀ t, get_clientlist_sheet_title titles monthFull = some t → titleStartsCL t = true)
    ∧ (∀ i, ∀ h : i < titles.length, titleEqDesired monthFull (titles.get ⟨i, h⟩) = true →
        ∃ j, ∃ hj : j < titles.length, j ≤ i
          ∧ get_clientlist_sheet_title titles monthFull = some (titles.get ⟨j, hj⟩)
          ∧ titleEqDesired monthFull (titles.get ⟨j, hj⟩) = true) := by
  refine ⟨⟨?_, ?_⟩, ?_, ?_, ?_⟩
  · intro h t ht
    unfold get_clientlist_sheet_title at h
    cases h1 : titles.find? (titleEqDesired monthFull) with
    | some t0 => rw [h1] at h; cases h
    | none =>
      rw [h1] at h
      constructor
      · have := List.find?_eq_none.mp h1 t ht
        simpa using this
      · have := List.find?_eq_none.mp h t ht
        simpa using this
  · intro h
    unfold get_clientlist_sheet_title
    have h1 : titles.find? (titleEqDesired monthFull) = none :=
      List.find?_eq_none.mpr (fun x hx => by simp [(h x hx).1])
    rw [h1]
    exact List.find?_eq_none.mpr (fun x hx => by simp [(h x hx).2])
  · intro t h
    unfold get_clientlist_sheet_title at h
    cases h1 : titles.find? (titleEqDesired monthFull) with
    | some t0 =>
      rw [h1] at h
      cases h
      exact ⟨List.mem_of_find?_eq_some h1, Or.inl (List.find?_some h1)⟩
    | none =>
      rw [h1] at h
      exact ⟨List.mem_of_find?_eq_some h, Or.inr (List.find?_some h)⟩
  · intro hnone t h
    unfold get_clientlist_sheet_title at h
    have h1 : titles.find? (titleEqDesired monthFull) = none :=
      List.find?_eq_none.mpr (fun x hx => by simp [hnone x hx])
    rw [h1] at h
    exact List.find?_some h
  · intro i h hp
    obtain ⟨j, hj, hle, hf, hpj⟩ := find?_first_index (titleEqDesired monthFull) titles i h hp
    refine ⟨j, hj, hle, ?_, hpj⟩
    unfold get_clientlist_sheet_title
    rw [hf]

theorem c9_month_tab_lookup_witness :
    ∀ t, get_clientlist_sheet_title [['c','l','i','e','n','t','l','i','s','t',' ','X']]
        (monthName 1) = some t →
      t ∈ [['c','l','i','e','n','t','l','i','s','t',' ','X']]
      ∧ (titleEqDesired (monthName 1) t = true ∨ titleStartsCL t = true) :=
  (c9_month_tab_lookup [['c','l','i','e','n','t','l','i','s','t',' ','X']] (monthName 1)).2.1

def c9janAbbrev : List Char := ['c','l','i','e','n','t','l','i','s','t',' ','J','a','n']

def c9janFull : List Char := ['c','l','i','e','n','t','l','i','s','t',' ','J','a','n','u','a','r','y']

/-- C9 as stated is false: with sheet titles "clientlist Jan" and
"clientlist January" and month January, an exact case-insensitive match on
the full month name exists, yet the lookup returns the abbreviation match
that comes first in the list — the first pass has no preference for the
full name. -/
theorem c9_month_tab_cex :
    get_clientlist_sheet_title [c9janAbbrev, c9janFull] (monthName 1) = some c9janAbbrev
    ∧ pyStrip (lowerS c9janFull) = lowerS (clientlistSpace ++ monthName 1)
    ∧ c9janFull ∈ [c9janAbbrev, c9janFull]
    ∧ c9janAbbrev ≠ c9janFull := by
  refine ⟨?_, ?_, ?_, ?_⟩ <;> decide

theorem getLast?_cons_eq {α : Type} (a : α) (l : List α) :
    (a :: l).getLast? = match l.getLast? with | some x => some x | none => some a := by
  induction l generalizing a with
  | nil => rfl
  | cons b bs ih =>
    rw [List.getLast?_cons_cons]
    cases h : (b :: bs).getLast? with
    | some x => simp [h]
    | none =>
      rw [ih b] at h
      cases hb : bs.getLast? <;> rw [hb] at h <;> cases h

/-- The last-match loop of the ledger accessor computes the last element of
the match list, provided no considered row has a crashing client cell. -/
theorem gpcGo_eq_matchList (ci si ei : Nat) (key : List Char) :
    ∀ (l : List (List Cell)) (idx : Nat) (acc : Option (List Cell × Nat)),
      (l.all fun r => decide (r.length ≤ max ci (max si ei)) ||
        (match r.getD ci (.str []) with
         | .str _ => true
         | .num n => decide (n = 0))) = true →
      gpcGo ci si ei key l idx acc =
        .ok (match (mrlGo ci si ei key l idx).getLast? with
             | some p => some p
             | none => acc) := by
  intro l
  induction l with
  | nil => intro idx acc _; rfl
  | cons r rest ih =>
    intro idx acc h
    rw [List.all_cons, Bool.and_eq_true] at h
    obtain ⟨h1, h2⟩ := h
    by_cases hs : r.length ≤ max ci (max si ei)
    · unfold gpcGo mrlGo
      rw [if_pos hs, if_pos hs]
      exact ih (idx + 1) acc h2
    · have hcell : normCell (r.getD ci (.str [])) = .ok (normCellD (r.getD ci (.str []))) := by
        cases hc : r.getD ci (.str []) with
        | str s => rfl
        | num n =>
          rw [hc] at h1
          simp [hs] at h1
          simp [normCell, normCellD, h1]
      unfold gpcGo mrlGo
      rw [if_neg hs, if_neg hs]
      rw [hcell]
      dsimp only
      by_cases hk : normCellD (r.getD ci (.str [])) = key
      · rw [if_pos hk, if_pos (by simpa using hk)]
        rw [ih (idx + 1) (some (r, idx)) h2]
        rw [getLast?_cons_eq]
        cases (mrlGo ci si ei key rest (idx + 1)).getLast? <;> rfl
      · rw [if_neg hk, if_neg (by simpa using hk)]
        exact ih (idx + 1) acc h2

/-- C8: when the ledger headers resolve and several rows match the client
name case/whitespace-insensitively, get_prev_cycle_for_client returns the
start and end dates (and 1-based sheet row) of the last matching row in
file order — whatever the dates chronologically are. -/
theorem c8_last_row_wins (ty : Nat) (vals : List (List Cell)) (clientName : List Char)
    (ci si ei : Nat) (hdrs : List (List Char)) (r : List Cell) (idx : Nat) (sd ed : YMD)
    (hv : 2 ≤ vals.length)
    (hh : headerCells (vals.getD 0 []) = .ok hdrs)
    (hci : idxOfL clientHdr hdrs = some ci)
    (hsi : idxOfL startHdr hdrs = some si)
    (hei : idxOfL endHdr hdrs = some ei)
    (hok : ledgerNamesOk vals ci si ei = true)
    (hm : (matchRowsLedger vals ci si ei (normName clientName)).getLast? = some (r, idx))
    (hsd : toDtCell ty (r.getD si (.str [])) = .ok (some sd))
    (hed : toDtCell ty (r.getD ei (.str [])) = .ok (some ed)) :
    get_prev_cycle_for_client ty vals clientName = .ok (some sd, some ed, some (idx + 1)) := by
  unfold get_prev_cycle_for_client
  rw [if_neg (by push_neg; constructor <;> [intro hc; omega] <;> simp [hc] at hv)]
  rw [hh]
  dsimp only
  rw [hci, hsi, hei]
  dsimp only
  rw [gpcGo_eq_matchList ci si ei (normName clientName) (vals.drop 1) 1 none hok]
  unfold matchRowsLedger at hm
  rw [hm]
  dsimp only
  rw [hsd, hed]

/-- C7 (amended): when the authoritative (last file-order) matching ledger
row has Start or End cells that fail to parse as dates, the accessor does
NOT raise any error — it returns the same (None, None, None) triple used
for a client with no ledger row at all, silently indistinguishable from
client-not-found. -/
theorem c7_malformed_silent (ty : Nat) (vals : List (List Cell)) (clientName : List Char)
    (ci si ei : Nat) (hdrs : List (List Char)) (r : List Cell) (idx : Nat)
    (sdo edo : Option YMD)
    (hv : 2 ≤ vals.length)
    (hh : headerCells (vals.getD 0 []) = .ok hdrs)
    (hci : idxOfL clientHdr hdrs = some ci)
    (hsi : idxOfL startHdr hdrs = some si)
    (hei : idxOfL endHdr hdrs = some ei)
    (hok : ledgerNamesOk vals ci si ei = true)
    (hm : (matchRowsLedger vals ci si ei (normName clientName)).getLast? = some (r, idx))
    (hsd : toDtCell ty (r.getD si (.str [])) = .ok sdo)
    (hed : toDtCell ty (r.getD ei (.str [])) = .ok edo)
    (hbad : sdo = none ∨ edo = none) :
    get_prev_cycle_for_client ty vals clientName = .ok (none, none, none) := by
  unfold get_prev_cycle_for_client
  rw [if_neg (by push_neg; constructor <;> [intro hc; omega] <;> simp [hc] at hv)]
  rw [hh]
  dsimp only
  rw [hci, hsi, hei]
  dsimp only
  rw [gpcGo_eq_matchList ci si ei (normName clientName) (vals.drop 1) 1 none hok]
  unfold matchRowsLedger at hm
  rw [hm]
  dsimp only
  rw [hsd, hed]
  rcases hbad with hb | hb
  · subst hb
    cases edo <;> rfl
  · subst hb
    cases sdo <;> rfl

def c7vals : List (List Cell) :=
  [[.str ['C','l','i','e','n','t'], .str ['S','t','a','r','t'], .str ['E','n','d']],
   [.str ['J','a','n','e'], .str ['g','a','r','b','a','g','e'], .str ['j','u','n','k']]]

/-- C7 as stated is false: with a ledger whose only (hence last) matching
row for Jane has Start/End present but unparseable, the accessor raises no
error at all — it returns the same (None, None, None) triple as for a
client with no row, the client-not-found outcome. -/
theorem c7_malformed_cex :
    get_prev_cycle_for_client 2025 c7vals ['J','a','n','e'] = .ok (none, none, none)
    ∧ (matchRowsLedger c7vals 0 1 2 (normName ['J','a','n','e'])).getLast?
        = some ([.str ['J','a','n','e'], .str ['g','a','r','b','a','g','e'], .str ['j','u','n','k']], 1)
    ∧ toDtCell 2025 (.str ['g','a','r','b','a','g','e']) = .ok none
    ∧ toDtCell 2025 (.str ['j','u','n','k']) = .ok none := by
  refine ⟨rfl, ?_, rfl, rfl⟩
  decide

theorem c7_malformed_silent_witness :
    get_prev_cycle_for_client 2025 c7vals ['J','a','n','e'] = .ok (none, none, none) :=
  c7_malformed_silent 2025 c7vals ['J','a','n','e'] 0 1 2
    [['c','l','i','e','n','t'], ['s','t','a','r','t'], ['e','n','d']]
    [.str ['J','a','n','e'], .str ['g','a','r','b','a','g','e'], .str ['j','u','n','k']] 1
    none none (by decide) rfl rfl rfl rfl (by decide) (by decide) rfl rfl (Or.inl rfl)

def c8vals : List (List Cell) :=
  [[.str ['C','l','i','e','n','t'], .str ['S','t','a','r','t'], .str ['E','n','d']],
   [.str ['J','a','n','e'], .str ['0','1','-','J','a','n','-','2','5'], .str ['3','1','-','D','e','c','-','2','5']],
   [.str ['J','a','n','e'], .str ['0','1','-','F','e','b','-','2','5'], .str ['2','8','-','F','e','b','-','2','5']]]

theorem c8_last_row_wins_witness :
    get_prev_cycle_for_client 2025 c8vals ['J','a','n','e']
      = .ok (some ⟨2025, 2, 1⟩, some ⟨2025, 2, 28⟩, some 3) :=
  c8_last_row_wins 2025 c8vals ['J','a','n','e'] 0 1 2
    [['c','l','i','e','n','t'], ['s','t','a','r','t'], ['e','n','d']]
    [.str ['J','a','n','e'], .str ['0','1','-','F','e','b','-','2','5'], .str ['2','8','-','F','e','b','-','2','5']] 2
    ⟨2025, 2, 1⟩ ⟨2025, 2, 28⟩ (by decide) rfl rfl rfl rfl (by decide) (by decide) rfl rfl

theorem scanGo_chr (ty : Nat) (row1 : List Cell) (start stop : YMD) :
    ∀ (fuel c : Nat) (blocks : List (YMD × Nat)) (hdr : List YMD)
      (res : List (YMD × Nat) × List YMD),
      scanGo ty row1 start stop fuel c blocks hdr = .ok res →
      res.2 = hdr.reverse ++
        ((((blockCellsGo row1 fuel c).map (toDtOpt ty)).takeWhile Option.isSome).reduceOption.filter
          (fun dt => inRangeB start stop dt)) := by
  intro fuel
  induction fuel with
  | zero =>
    intro c blocks hdr res h
    unfold scanGo at h
    cases h
    simp [blockCellsGo]
  | succ fuel ih =>
    intro c blocks hdr res h
    unfold scanGo at h
    by_cases hc : c < row1.length
    · rw [if_pos hc] at h
      cases he : toDtCell ty (row1.getD c (.str [])) with
      | error e => rw [he] at h; cases h
      | ok o =>
        rw [he] at h
        cases o with
        | none =>
          dsimp only at h
          cases h
          unfold blockCellsGo
          rw [if_pos hc, List.map_cons]
          have htd : toDtOpt ty (row1.getD c (.str [])) = none := by unfold toDtOpt; rw [he]
          rw [htd]
          simp
        | some dt =>
          dsimp only at h
          have hres := ih (c + COLUMNS_PER_BLOCK) (dIns blocks dt c)
            (if ymdLe start dt ∧ ymdLe dt stop then dt :: hdr else hdr) res h
          rw [hres]
          have hstep : blockCellsGo row1 (fuel + 1) c
              = row1.getD c (.str []) :: blockCellsGo row1 fuel (c + COLUMNS_PER_BLOCK) := by
            simp only [blockCellsGo]
            rw [if_pos hc]
          have htd : toDtOpt ty (row1.getD c (.str [])) = some dt := by unfold toDtOpt; rw [he]
          rw [hstep, List.map_cons, htd, List.takeWhile_cons_of_pos (by simp),
            List.reduceOption_cons_of_some]
          by_cases hr : ymdLe start dt ∧ ymdLe dt stop
          · have hrb : inRangeB start stop dt = true := by
              rw [inRangeB, Bool.and_eq_true]; exact ⟨hr.1, hr.2⟩
            rw [if_pos hr, List.filter_cons_of_pos (by simpa using hrb)]
            simp [List.append_assoc]
          · have hrb : inRangeB start stop dt = false := by
              rw [Bool.eq_false_iff]
              intro hcon
              rw [inRangeB, Bool.and_eq_true] at hcon
              exact hr ⟨hcon.1, hcon.2⟩
            rw [if_neg hr, List.filter_cons_of_neg (by simpa using hrb)]
    · rw [if_neg hc] at h
      cases h
      simp [blockCellsGo, hc]

/-- C3 (amended): the header scan stops at the first block-boundary cell
that does not parse as a date — blank or not, and no matter how many dates
were already found.  The retained header dates are exactly the in-range
dates of the maximal parseable prefix of the block-boundary cells. -/
theorem c3_scan_stops_at_first_unparseable (ty : Nat) (row1 : List Cell) (start stop : YMD)
    (c0 : Nat) (blocks : List (YMD × Nat)) (hdr : List YMD)
    (h : scanHeaders ty row1 start stop c0 = .ok (blocks, hdr)) :
    hdr = (((blockCells row1 c0).map (toDtOpt ty)).takeWhile Option.isSome).reduceOption.filter
      (fun dt => inRangeB start stop dt) := by
  have := scanGo_chr ty row1 start stop (row1.length + 1) c0 [] [] (blocks, hdr) h
  simpa [blockCells] using this

def c3row : List Cell :=
  [.str ['0','5','-','J','a','n','-','2','5'], .str [], .str [], .str [], .str [], .str [],
   .str ['n','o','t','e','s'], .str [], .str [], .str [], .str [], .str [],
   .str ['1','2','-','J','a','n','-','2','5']]

/-- C3 as stated is false: a block-boundary cell that is unparseable but
NOT blank ("notes") stops the scan, so the later in-range date header
12-Jan-25 is never collected even though one date was already found. -/
theorem c3_scan_cex :
    scanHeaders 2025 c3row ⟨2025, 1, 1⟩ ⟨2025, 1, 31⟩ 0
      = .ok ([(⟨2025, 1, 5⟩, 0)], [⟨2025, 1, 5⟩])
    ∧ toDtOpt 2025 (.str ['n','o','t','e','s']) = none
    ∧ (['n','o','t','e','s'] : List Char) ≠ []
    ∧ pyStrip ['n','o','t','e','s'] ≠ []
    ∧ (.str ['1','2','-','J','a','n','-','2','5']) ∈ blockCells c3row 0
    ∧ toDtOpt 2025 (.str ['1','2','-','J','a','n','-','2','5']) = some ⟨2025, 1, 12⟩
    ∧ inRangeB ⟨2025, 1, 1⟩ ⟨2025, 1, 31⟩ ⟨2025, 1, 12⟩ = true := by
  refine ⟨rfl, rfl, ?_, ?_, ?_, rfl, rfl⟩ <;> decide

theorem c3_scan_stops_witness :
    ([⟨2025, 1, 5⟩] : List YMD)
      = (((blockCells c3row 0).map (toDtOpt 2025)).takeWhile Option.isSome).reduceOption.filter
          (fun dt => inRangeB ⟨2025, 1, 1⟩ ⟨2025, 1, 31⟩ dt) :=
  c3_scan_stops_at_first_unparseable 2025 c3row ⟨2025, 1, 1⟩ ⟨2025, 1, 31⟩ 0
    [(⟨2025, 1, 5⟩, 0)] [⟨2025, 1, 5⟩] rfl

theorem dGet_dIns_self (l : List (YMD × Nat)) (k : YMD) (v : Nat) :
    dGet (dIns l k v) k = some v := by
  induction l with
  | nil => simp [dIns, dGet]
  | cons p r ih =>
    obtain ⟨k0, v0⟩ := p
    by_cases h : k0 = k
    · simp [dIns, dGet, h]
    · simp [dIns, dGet, h, ih]

theorem dGet_dIns_ne_none (l : List (YMD × Nat)) (k q : YMD) (v : Nat)
    (h : dGet l q ≠ none) : dGet (dIns l k v) q ≠ none := by
  induction l with
  | nil => simp [dGet] at h
  | cons p r ih =>
    obtain ⟨k0, v0⟩ := p
    by_cases h0 : k0 = k
    · subst h0
      by_cases h1 : k0 = q
      · simp [dIns, dGet, h1]
      · simp only [dGet, if_neg h1] at h
        simp [dIns, dGet, h1, h]
    · by_cases h1 : k0 = q
      · subst h1
        simp [dIns, dGet, h0]
      · simp only [dGet, if_neg h1] at h
        simp [dIns, dGet, h0, h1, ih h]

/-- Every header date the scan keeps has a block recorded in the final
date-to-block dictionary. -/
theorem scanGo_blocks (ty : Nat) (row1 : List Cell) (start stop : YMD) :
    ∀ (fuel c : Nat) (blocks : List (YMD × Nat)) (hdr : List YMD)
      (res : List (YMD × Nat) × List YMD),
      scanGo ty row1 start stop fuel c blocks hdr = .ok res →
      (∀ d ∈ hdr, dGet blocks d ≠ none) →
      ∀ d ∈ res.2, dGet res.1 d ≠ none := by
  intro fuel
  induction fuel with
  | zero =>
    intro c blocks hdr res h hinv
    unfold scanGo at h
    cases h
    intro d hd
    exact hinv d (by simpa using hd)
  | succ fuel ih =>
    intro c blocks hdr res h hinv
    unfold scanGo at h
    by_cases hc : c < row1.length
    · rw [if_pos hc] at h
      cases he : toDtCell ty (row1.getD c (.str [])) with
      | error e => rw [he] at h; cases h
      | ok o =>
        rw [he] at h
        cases o with
        | none =>
          dsimp only at h
          cases h
          intro d hd
          exact hinv d (by simpa using hd)
        | some dt =>
          dsimp only at h
          refine ih (c + COLUMNS_PER_BLOCK) (dIns blocks dt c) _ res h ?_
          intro d hd
          by_cases hdt : ymdLe start dt ∧ ymdLe dt stop
          · rw [if_pos hdt] at hd
            rcases List.mem_cons.mp hd with hd1 | hd1
            · subst hd1
              rw [dGet_dIns_self]
              simp
            · exact dGet_dIns_ne_none blocks dt d c (hinv d hd1)
          · rw [if_neg hdt] at hd
            exact dGet_dIns_ne_none blocks dt d c (hinv d hd)
    · rw [if_neg hc] at h
      cases h
      intro d hd
      exact hinv d (by simpa using hd)

/-- Each processed date is counted as exactly one of active or paused;
dates with no block or with no client rows are skipped entirely. -/
theorem dateLoop_bounds (data : List (List Cell)) (rows : List Nat) (blocks : List (YMD × Nat)) :
    ∀ dates : List YMD,
      (dateLoop data rows blocks dates).1 + (dateLoop data rows blocks dates).2.1.length
        ≤ dates.length
      ∧ (rows ≠ [] → (∀ d ∈ dates, dGet blocks d ≠ none) →
          (dateLoop data rows blocks dates).1 + (dateLoop data rows blocks dates).2.1.length
            = dates.length) := by
  intro dates
  induction dates with
  | nil => simp [dateLoop]
  | cons dt ds ih =>
    unfold dateLoop
    cases hb : dGet blocks dt with
    | none =>
      constructor
      · have := ih.1
        simp only [List.length_cons]
        omega
      · intro hr hmem
        exact absurd hb (hmem dt (by simp))
    | some block =>
      dsimp only
      by_cases hrw : rows = []
      · rw [if_pos hrw]
        constructor
        · have := ih.1
          simp only [List.length_cons]
          omega
        · intro hr _
          exact absurd hrw hr
      · rw [if_neg hrw]
        by_cases hact : 0 < activitySum (tallyRows data rows block)
        · rw [if_pos hact]
          constructor
          · have := ih.1
            simp only [List.length_cons]
            omega
          · intro hr hmem
            have := ih.2 hr (fun d hd => hmem d (by simp [hd]))
            simp only [List.length_cons]
            omega
        · rw [if_neg hact]
          constructor
          · have := ih.1
            simp only [List.length_cons, List.length_cons]
            omega
          · intro hr hmem
            have := ih.2 hr (fun d hd => hmem d (by simp [hd]))
            simp only [List.length_cons]
            omega

/-- Per month: active plus paused dates never exceed the confirmed header
dates, with equality whenever the client has rows in that month's sheet. -/
theorem processMonth_partition (ty : Nat) (titles : List (List Char))
    (fetch : List Char → List (List Cell)) (key : List Char) (start stop : YMD)
    (ym : Nat × Nat) (mr : MRes)
    (h : processMonth ty titles fetch key start stop ym = .ok (some mr)) :
    mr.mAct + mr.mPaused.length ≤ mr.headerDates.length
    ∧ (mr.clientRows ≠ [] → mr.mAct + mr.mPaused.length = mr.headerDates.length) := by
  unfold processMonth at h
  cases ht : get_clientlist_sheet_title titles (monthName ym.2) with
  | none => rw [ht] at h; cases h
  | some sheetTitle =>
    rw [ht] at h
    dsimp only at h
    by_cases hd : fetch sheetTitle = []
    · rw [if_pos hd] at h; cases h
    · rw [if_neg hd] at h
      cases hn : rowNames (fetch sheetTitle) with
      | error e => rw [hn] at h; cases h
      | ok names =>
        rw [hn] at h
        dsimp only at h
        cases hdet : detect_clientlist_structure ty ((fetch sheetTitle).getD 0 []) with
        | error e => rw [hdet] at h; cases h
        | ok det =>
          rw [hdet] at h
          dsimp only at h
          cases hsc : scanHeaders ty ((fetch sheetTitle).getD 0 []) start stop det.1 with
          | error e => rw [hsc] at h; cases h
          | ok scanned =>
            rw [hsc] at h
            dsimp only at h
            cases h
            have hblocks : ∀ d ∈ scanned.2, dGet scanned.1 d ≠ none :=
              scanGo_blocks ty _ start stop ((fetch sheetTitle).getD 0 []).length.succ det.1
                [] [] scanned hsc (by simp)
            have hdl := dateLoop_bounds (fetch sheetTitle)
              (clientRowIdx names key) scanned.1 scanned.2
            exact ⟨hdl.1, fun hr => hdl.2 hr hblocks⟩

/-- Folding the month loop preserves the partition accounting. -/
theorem cuGo_partition (ty : Nat) (titles : List (List Char))
    (fetch : List Char → List (List Cell)) (key : List Char) (start stop : YMD) :
    ∀ (months : List (Nat × Nat)) (st st' : CState),
      cuGo ty titles fetch key start stop months st = .ok st' →
      (st.activeD + st.paused.length ≤ st.totalD →
        st'.activeD + st'.paused.length ≤ st'.totalD)
      ∧ ((months.all fun ym =>
            match processMonth ty titles fetch key start stop ym with
            | .ok (some mr) => mr.headerDates.isEmpty || !mr.clientRows.isEmpty
            | _ => true) = true →
          st.activeD + st.paused.length = st.totalD →
          st'.activeD + st'.paused.length = st'.totalD) := by
  intro months
  induction months with
  | nil =>
    intro st st' h
    cases h
    exact ⟨id, fun _ => id⟩
  | cons ym rest ih =>
    intro st st' h
    unfold cuGo at h
    cases hp : processMonth ty titles fetch key start stop ym with
    | error e => rw [hp] at h; cases h
    | ok om =>
      rw [hp] at h
      cases om with
      | none =>
        dsimp only at h
        constructor
        · exact (ih st st' h).1
        · intro hall hle
          rw [List.all_cons] at hall
          exact (ih st st' h).2 (Bool.and_eq_true _ _ |>.mp hall).2 hle
      | some mr =>
        dsimp only at h
        have pm := processMonth_partition ty titles fetch key start stop ym mr hp
        constructor
        · intro hle
          refine (ih _ _ h).1 ?_
          simp only [cuStep, List.length_append]
          have := pm.1
          omega
        · intro hall hle
          rw [List.all_cons, Bool.and_eq_true] at hall
          obtain ⟨h1, h2⟩ := hall
          rw [hp] at h1
          refine (ih _ _ h).2 h2 ?_
          simp only [cuStep, List.length_append]
          have heq : mr.mAct + mr.mPaused.length = mr.headerDates.length := by
            rcases Bool.or_eq_true _ _ |>.mp h1 with he | he
            · have h0 : mr.headerDates.length = 0 := by
                rw [List.isEmpty_iff] at he
                simp [he]
              have := pm.1
              omega
            · refine pm.2 ?_
              intro hcon
              rw [hcon] at he
              simp at he
          omega

/-- C1 (amended): the aggregate always satisfies
active_days + paused_days = total_days, and len(paused_dates) ≤ paused_days;
the claimed equality len(paused_dates) = paused_days holds whenever no
enumerated month contributes confirmed dates while the client has no rows
in its sheet, and fails otherwise (dates of such months are counted into
total_days but never into active days or the paused-date list). -/
theorem c1_partition (ty : Nat) (titles : List (List Char))
    (fetch : List Char → List (List Cell)) (start stop : YMD) (clientName : List Char)
    (u : Usage) (h : count_usage ty titles fetch start stop clientName = .ok u) :
    u.activeDays + u.pausedDays = u.totalDays
    ∧ u.pausedDates.length ≤ u.pausedDays
    ∧ (noSkippedDates ty titles fetch (normName clientName) start stop = true →
        u.pausedDates.length = u.pausedDays) := by
  unfold count_usage at h
  cases hc : cuGo ty titles fetch (normName clientName) start stop
      (month_span_inclusive start stop) ⟨{}, 0, 0, [], qZero⟩ with
  | error e => rw [hc] at h; cases h
  | ok st =>
    rw [hc] at h
    dsimp only at h
    cases h
    have hcu := cuGo_partition ty titles fetch (normName clientName) start stop
      (month_span_inclusive start stop) ⟨{}, 0, 0, [], qZero⟩ st hc
    have hle : st.activeD + st.paused.length ≤ st.totalD := hcu.1 (by simp)
    refine ⟨?_, ?_, ?_⟩
    · show st.activeD + (st.totalD - st.activeD) = st.totalD
      omega
    · show st.paused.length ≤ st.totalD - st.activeD
      omega
    · intro hns
      unfold noSkippedDates at hns
      have heq := hcu.2 hns (by simp)
      show st.paused.length = st.totalD - st.activeD
      omega

def c1titles : List (List Char) :=
  [['c','l','i','e','n','t','l','i','s','t',' ','J','a','n','u','a','r','y']]

def c1grid : List (List Cell) :=
  [[.str [], .str ['C','l','i','e','n','t'], .str ['T','y','p','e'],
    .str ['1','5','-','J','a','n','-','2','5']]]

def c1badUsage : Usage :=
  ⟨⟨0, 0, 0, 0, 0, 0, 0⟩, 0, 0, 0, 1, 1, [], ⟨0, 1⟩⟩

/-- C1 as stated is false: a month sheet with one confirmed in-range header
date but no rows for the requested client yields paused_days = 1 while the
collected paused-date list is empty, so len(paused_dates) ≠ paused_days. -/
theorem c1_partition_cex :
    count_usage 2025 c1titles (fun _ => c1grid) ⟨2025, 1, 15⟩ ⟨2025, 1, 15⟩ ['B','o','b']
      = .ok c1badUsage
    ∧ c1badUsage.pausedDates.length = 0
    ∧ c1badUsage.pausedDays = 1 := ⟨rfl, rfl, rfl⟩

def c1wTitles : List (List Char) :=
  [['c','l','i','e','n','t','l','i','s','t',' ','J','a','n','u','a','r','y']]

def c1wGrid : List (List Cell) :=
  [[.str [], .str ['C','l','i','e','n','t'], .str ['T','y','p','e'],
    .str ['1','5','-','J','a','n','-','2','5'], .str [], .str [], .str [], .str [], .str [],
    .str ['1','6','-','J','a','n','-','2','5']],
   [.str [], .str ['A','m','y'], .str [],
    .str ['M','1'], .str [], .str [], .str [], .str [], .str [], .str []]]

def c1wUsage : Usage :=
  ⟨⟨1, 0, 0, 0, 0, 0, 0⟩, 1, 0, 1, 1, 2, [⟨2025, 1, 16⟩], ⟨0, 1⟩⟩

theorem c1_partition_witness :
    c1wUsage.activeDays + c1wUsage.pausedDays = c1wUsage.totalDays
    ∧ c1wUsage.pausedDates.length ≤ c1wUsage.pausedDays
    ∧ c1wUsage.pausedDates.length = c1wUsage.pausedDays :=
  have h := c1_partition 2025 c1wTitles (fun _ => c1wGrid) ⟨2025, 1, 15⟩ ⟨2025, 1, 16⟩
    ['A','m','y'] c1wUsage rfl
  ⟨h.1, h.2.1, h.2.2 (by decide)⟩

theorem monthsGo_cuGo (ty : Nat) (titles : List (List Char))
    (fetch : List Char → List (List Cell)) (key : List Char) (start stop : YMD) :
    ∀ (months : List (Nat × Nat)) (ms : List (Option MRes)) (st : CState),
      monthsGo ty titles fetch key start stop months = .ok ms →
      cuGo ty titles fetch key start stop months st = .ok (cuFold st ms) := by
  intro months
  induction months with
  | nil =>
    intro ms st h
    cases h
    rfl
  | cons ym rest ih =>
    intro ms st h
    unfold monthsGo at h
    cases hp : processMonth ty titles fetch key start stop ym with
    | error e => rw [hp] at h; cases h
    | ok om =>
      rw [hp] at h
      dsimp only at h
      cases hr : monthsGo ty titles fetch key start stop rest with
      | error e => rw [hr] at h; cases h
      | ok ms' =>
        rw [hr] at h
        dsimp only at h
        cases h
        unfold cuGo
        rw [hp]
        cases om with
        | none =>
          dsimp only
          rw [ih ms' st hr]
          rfl
        | some mr =>
          dsimp only
          rw [ih ms' (cuStep st mr) hr]
          rfl

theorem cuFold_lastDel : ∀ (ms : List (Option MRes)) (st : CState),
    (cuFold st ms).lastDel
      = ms.foldl (fun acc om =>
          match om with
          | some mr => if qIsZero mr.perDay then acc else mr.perDay
          | none => acc) st.lastDel := by
  intro ms
  induction ms with
  | nil => intro st; rfl
  | cons om rest ih =>
    intro st
    cases om with
    | none => exact ih st
    | some mr =>
      show (cuFold (cuStep st mr) rest).lastDel = _
      rw [ih (cuStep st mr)]
      rfl

theorem cuFold_activeD : ∀ (ms : List (Option MRes)) (st : CState),
    (cuFold st ms).activeD
      = ms.foldl (fun acc om =>
          match om with
          | some mr => acc + mr.mAct
          | none => acc) st.activeD := by
  intro ms
  induction ms with
  | nil => intro st; rfl
  | cons om rest ih =>
    intro st
    cases om with
    | none => exact ih st
    | some mr =>
      show (cuFold (cuStep st mr) rest).activeD = _
      rw [ih (cuStep st mr)]
      rfl

theorem pyRound_zero_num (q : PyQ) (h : q.num = 0) : pyRound q = 0 := by
  unfold pyRound
  rw [h]
  rw [Int.zero_fdiv]
  simp only [Int.zero_mul, Int.sub_zero, Int.mul_zero]
  have he : Int.emod 0 2 = 0 := rfl
  split_ifs with h1 h2 h3 <;> first | rfl | omega | exact absurd he h3

theorem qAdd_qZero (q : PyQ) : qAdd qZero q = q := by
  cases q with
  | mk n d => simp [qAdd, qZero]

theorem qMulNat_zero_num (k : Nat) : (qMulNat qZero k).num = 0 := by
  simp [qMulNat, qZero]

/-- C2 (amended): count_usage keeps only one delivery rate — the last
enumerated month whose resolved per-day price is nonzero — and the invoice
delivery amount with untouched admin fields is round(that single rate ×
the total active-day count across all months), not the per-month sum of
per_day_price × active_days_this_month.  The two coincide when the range
spans at most one calendar month. -/
theorem c2_delivery (ty : Nat) (titles : List (List Char))
    (fetch : List Char → List (List Cell)) (clientName : List Char) (start stop : YMD)
    (ms : List (Option MRes)) (u : Usage)
    (hm : monthsData ty titles fetch (normName clientName) start stop = .ok ms)
    (hu : count_usage ty titles fetch start stop clientName = .ok u) :
    u.lastPerDayDelivery = lastTruthyOf ms
    ∧ u.activeDays = sumActiveOf ms
    ∧ delivery_amount_default u = pyRound (qMulNat (lastTruthyOf ms) (sumActiveOf ms))
    ∧ ((month_span_inclusive start stop).length ≤ 1 →
        delivery_amount_default u = pyRound (specDeliverySum ms)) := by
  unfold count_usage at hu
  unfold monthsData at hm
  rw [monthsGo_cuGo ty titles fetch (normName clientName) start stop
    (month_span_inclusive start stop) ms ⟨{}, 0, 0, [], qZero⟩ hm] at hu
  dsimp only at hu
  cases hu
  have hl : (cuFold ⟨{}, 0, 0, [], qZero⟩ ms).lastDel = lastTruthyOf ms := by
    rw [cuFold_lastDel]
    rfl
  have ha : (cuFold ⟨{}, 0, 0, [], qZero⟩ ms).activeD = sumActiveOf ms := by
    rw [cuFold_activeD]
    rfl
  refine ⟨hl, ha, ?_, ?_⟩
  · show pyRound (qMulNat (cuFold ⟨{}, 0, 0, [], qZero⟩ ms).lastDel
      (cuFold ⟨{}, 0, 0, [], qZero⟩ ms).activeD) = _
    rw [hl, ha]
  · intro hlen
    show pyRound (qMulNat (cuFold ⟨{}, 0, 0, [], qZero⟩ ms).lastDel
      (cuFold ⟨{}, 0, 0, [], qZero⟩ ms).activeD) = _
    rw [hl, ha]
    match hsp : month_span_inclusive start stop, hlen with
    | [], _ =>
      rw [hsp] at hm
      cases hm
      rfl
    | [ym], _ =>
      rw [hsp] at hm
      unfold monthsGo at hm
      cases hp : processMonth ty titles fetch (normName clientName) start stop ym with
      | error e => rw [hp] at hm; cases hm
      | ok om =>
        rw [hp] at hm
        dsimp only at hm
        cases hm
        cases om with
        | none => rfl
        | some mr =>
          show pyRound (qMulNat (if qIsZero mr.perDay then qZero else mr.perDay) (0 + mr.mAct))
            = pyRound (qAdd qZero (qMulNat mr.perDay mr.mAct))
          rw [qAdd_qZero, Nat.zero_add]
          by_cases hz : qIsZero mr.perDay
          · rw [if_pos hz]
            rw [pyRound_zero_num _ (qMulNat_zero_num mr.mAct)]
            rw [pyRound_zero_num]
            unfold qIsZero at hz
            simp only [decide_eq_true_eq] at hz
            simp [qMulNat, hz]
          · rw [if_neg hz]

def c2janTitle : List Char := ['c','l','i','e','n','t','l','i','s','t',' ','J','a','n','u','a','r','y']

def c2febTitle : List Char := ['c','l','i','e','n','t','l','i','s','t',' ','F','e','b','r','u','a','r','y']

def c2titles : List (List Char) := [c2janTitle, c2febTitle]

def c2janGrid : List (List Cell) :=
  [[.str [], .str ['C','l','i','e','n','t'], .str ['T','y','p','e'], .str ['D','e','l','i','v','e','r','y'],
    .str ['1','5','-','J','a','n','-','2','5']],
   [.str [], .str ['A','l','i','c','e'], .str ['M','o','r','n','i','n','g',' ','D','e','l','i','v','e','r','y'],
    .str ['5','0'], .str ['M','1']]]

def c2febGrid80 : List (List Cell) :=
  [[.str [], .str ['C','l','i','e','n','t'], .str ['T','y','p','e'], .str ['D','e','l','i','v','e','r','y'],
    .str ['1','6','-','F','e','b','-','2','5']],
   [.str [], .str ['A','l','i','c','e'], .str ['M','o','r','n','i','n','g',' ','D','e','l','i','v','e','r','y'],
    .str ['8','0'], .str ['M','1']]]

def c2fetch (t : List Char) : List (List Cell) :=
  if t = c2janTitle then c2janGrid else c2febGrid80

def c2u : Usage :=
  ⟨⟨2, 0, 0, 0, 0, 0, 0⟩, 2, 0, 2, 0, 2, [], ⟨80, 1⟩⟩

/-- C2 as stated is false: across a January/February range where January
resolves a per-day price of 50 with one active day and February a price of
80 with one active day, the spec's per-month sum is 50·1 + 80·1 = 130, but
the code multiplies the total active days by the last learned price:
round(2 × 80) = 160. -/
theorem c2_delivery_cex :
    count_usage 2025 c2titles c2fetch ⟨2025, 1, 10⟩ ⟨2025, 2, 20⟩ ['A','l','i','c','e'] = .ok c2u
    ∧ delivery_amount_default c2u = 160
    ∧ (monthsData 2025 c2titles c2fetch (normName ['A','l','i','c','e'])
        ⟨2025, 1, 10⟩ ⟨2025, 2, 20⟩).map (fun ms => pyRound (specDeliverySum ms)) = .ok 130
    ∧ (160 : Int) ≠ 130 := by
  refine ⟨rfl, rfl, rfl, by decide⟩

def c2wFetch (t : List Char) : List (List Cell) :=
  if t = c2janTitle then c2janGrid else []

theorem c2_delivery_witness :
    ∃ ms u,
      monthsData 2025 [c2janTitle] c2wFetch (normName ['A','l','i','c','e'])
        ⟨2025, 1, 10⟩ ⟨2025, 1, 20⟩ = .ok ms
      ∧ count_usage 2025 [c2janTitle] c2wFetch ⟨2025, 1, 10⟩ ⟨2025, 1, 20⟩ ['A','l','i','c','e'] = .ok u
      ∧ delivery_amount_default u = pyRound (specDeliverySum ms) :=
  ⟨_, _, rfl, rfl,
    (c2_delivery 2025 [c2janTitle] c2wFetch ['A','l','i','c','e'] ⟨2025, 1, 10⟩ ⟨2025, 1, 20⟩
      _ _ rfl rfl).2.2.2 (by decide)⟩

theorem toNat_digitChar (k : Nat) (h : k < 10) : (digitChar k).toNat = 48 + k := by
  interval_cases k <;> decide

theorem isDigitN_digitChar (k : Nat) (h : k < 10) : isDigitN (digitChar k).toNat = true := by
  rw [isDigitN, toNat_digitChar k h]
  simp
  omega

theorem dvalN_digitChar (k : Nat) (h : k < 10) : dvalN (digitChar k).toNat = k := by
  rw [dvalN, toNat_digitChar k h]
  omega

theorem digitChar_not_space (k : Nat) (h : k < 10) : isSpaceC (digitChar k) = false := by
  rw [isSpaceC, toNat_digitChar k h]
  simp
  omega

theorem stripLead_cons_digit (k : Nat) (h : k < 10) (r : List Char) :
    stripLead (digitChar k :: r) = digitChar k :: r := by
  unfold stripLead
  rw [List.dropWhile_cons]
  rw [digitChar_not_space k h]
  simp

theorem stripTrail_id_of_getLast (s : List Char) (c : Char) (h : s.getLast? = some c)
    (hc : isSpaceC c = false) : stripTrail s = s := by
  unfold stripTrail
  rw [← List.head?_reverse] at h
  cases hs : s.reverse with
  | nil => rw [hs] at h; cases h
  | cons c0 t =>
    rw [hs] at h
    simp only [List.head?_cons, Option.some.injEq] at h
    subst h
    rw [List.dropWhile_cons, hc]
    simp only [Bool.false_eq_true, if_false]
    rw [← hs, List.reverse_reverse]

theorem getLast?_cons_right {α : Type} (a : α) (m : List α) (c : α) (h : m.getLast? = some c) :
    (a :: m).getLast? = some c := by
  rw [getLast?_cons_eq, h]

theorem getLast?_append_right {α : Type} (l m : List α) (c : α) (h : m.getLast? = some c) :
    (l ++ m).getLast? = some c := by
  induction l with
  | nil => simpa using h
  | cons a t ih => exact getLast?_cons_right a (t ++ m) c ih

theorem getLast?_pad2 (n : Nat) : (pad2 n).getLast? = some (digitChar (n % 10)) := rfl

theorem getLast?_year4 (n : Nat) : (year4 n).getLast? = some (digitChar (n % 100 % 10)) := rfl

theorem lowerN_digit (k : Nat) (h : k < 10) : lowerN (digitChar k).toNat = 48 + k := by
  rw [toNat_digitChar k h, lowerN, if_neg]
  omega

theorem ciPref_digit_false (c0 : Char) (w r : List Char) (k : Nat) (hk : k < 10)
    (hc : 100 ≤ c0.toNat) :
    ciPref (c0 :: w) (digitChar k :: r) = false := by
  unfold ciPref
  rw [lowerN_digit k hk]
  have : (48 + k = c0.toNat) = False := eq_false (by omega)
  simp [this]

theorem wdStrip_digit (k : Nat) (hk : k < 10) (r : List Char) :
    wdStrip (digitChar k :: r) = digitChar k :: r := by
  unfold wdStrip
  rw [stripLead_cons_digit k hk]
  rw [firstSome_eq_none]
  intro w hw
  have hci : ciPref w (digitChar k :: r) = false := by
    fin_cases hw <;> exact ciPref_digit_false _ _ _ k hk (by decide)
  unfold wdAltMatch
  rw [hci]
  simp

theorem candsY2_pad2 (n : Nat) (h : n < 100) (r : List Char) :
    candsY2 (pad2 n ++ r) = [(n, r)] := by
  have h1 : n / 10 < 10 := by omega
  have h2 : n % 10 < 10 := by omega
  show candsY2 (digitChar (n / 10) :: digitChar (n % 10) :: r) = [(n, r)]
  unfold candsY2
  dsimp only
  rw [if_pos ⟨isDigitN_digitChar _ h1, isDigitN_digitChar _ h2⟩]
  rw [dvalN_digitChar _ h1, dvalN_digitChar _ h2]
  simp only [List.cons.injEq, Prod.mk.injEq, and_true]
  omega

theorem candsY4_year4 (n : Nat) (h : n ≤ 9999) (r : List Char) :
    candsY4 (year4 n ++ r) = [(n, r)] := by
  have h1 : n / 100 / 10 < 10 := by omega
  have h2 : n / 100 % 10 < 10 := by omega
  have h3 : n % 100 / 10 < 10 := by omega
  have h4 : n % 100 % 10 < 10 := by omega
  show candsY4 (digitChar (n / 100 / 10) :: digitChar (n / 100 % 10)
    :: digitChar (n % 100 / 10) :: digitChar (n % 100 % 10) :: r) = [(n, r)]
  unfold candsY4
  dsimp only
  rw [if_pos ⟨isDigitN_digitChar _ h1, isDigitN_digitChar _ h2,
    isDigitN_digitChar _ h3, isDigitN_digitChar _ h4⟩]
  rw [dvalN_digitChar _ h1, dvalN_digitChar _ h2, dvalN_digitChar _ h3, dvalN_digitChar _ h4]
  simp only [List.cons.injEq, Prod.mk.injEq, and_true]
  omega

theorem candsY4_pad2_end (n : Nat) : candsY4 (pad2 n) = [] := rfl

theorem candsY4_pad2_nondigit (n : Nat) (c : Char) (hc : isDigitN c.toNat = false)
    (r : List Char) : candsY4 (pad2 n ++ c :: r) = [] := by
  show candsY4 (digitChar (n / 10) :: digitChar (n % 10) :: c :: r) = []
  cases r with
  | nil => rfl
  | cons e r' =>
    unfold candsY4
    dsimp only
    rw [if_neg]
    intro hcon
    rw [hc] at hcon
    exact absurd hcon.2.2.1 (by simp)

theorem candsB_mon3 (m : Nat) (h1 : 1 ≤ m) (h2 : m ≤ 12) (r : List Char) :
    candsB (mon3 m ++ r) = [(m, r)] := by
  interval_cases m <;> rfl

theorem candsD_pad2_shape (n : Nat) (h1 : 1 ≤ n) (h2 : n ≤ 31) (r : List Char) :
    ∃ tail, candsD (pad2 n ++ r) = (n, r) :: tail
      ∧ (tail = [] ∨ ∃ v, tail = [(v, digitChar (n % 10) :: r)]) := by
  have ha : (digitChar (n / 10)).toNat = 48 + n / 10 := toNat_digitChar _ (by omega)
  have hb : (digitChar (n % 10)).toNat = 48 + n % 10 := toNat_digitChar _ (by omega)
  show ∃ tail, candsD (digitChar (n / 10) :: digitChar (n % 10) :: r) = (n, r) :: tail ∧ _
  unfold candsD
  dsimp only
  rw [ha, hb]
  by_cases h30 : 30 ≤ n
  · rw [if_pos (by omega), if_neg (by omega), if_neg (by omega), if_pos (by omega)]
    refine ⟨[(dvalN (48 + n / 10), digitChar (n % 10) :: r)], ?_, Or.inr ⟨dvalN (48 + n / 10), rfl⟩⟩
    simp only [List.nil_append, List.cons_append, List.cons.injEq, Prod.mk.injEq, and_true]
    simp only [dvalN]
    omega
  · by_cases h10 : 10 ≤ n
    · rw [if_neg (by omega), if_pos ⟨by omega, by rw [isDigitN]; simp; omega⟩,
        if_neg (by omega), if_pos (by omega)]
      refine ⟨[(dvalN (48 + n / 10), digitChar (n % 10) :: r)], ?_, Or.inr ⟨dvalN (48 + n / 10), rfl⟩⟩
      simp only [List.nil_append, List.cons_append, List.cons.injEq, Prod.mk.injEq, and_true]
      simp only [dvalN]
      omega
    · rw [if_neg (by omega), if_neg (by omega), if_pos ⟨by omega, by omega, by omega⟩,
        if_neg (by omega)]
      refine ⟨[], ?_, Or.inl rfl⟩
      simp only [List.append_nil, List.nil_append, List.cons.injEq, Prod.mk.injEq, and_true]
      rw [dvalN]; omega

theorem candsM_pad2_shape (n : Nat) (h1 : 1 ≤ n) (h2 : n ≤ 12) (r : List Char) :
    ∃ tail, candsM (pad2 n ++ r) = (n, r) :: tail
      ∧ (tail = [] ∨ ∃ v, tail = [(v, digitChar (n % 10) :: r)]) := by
  have ha : (digitChar (n / 10)).toNat = 48 + n / 10 := toNat_digitChar _ (by omega)
  have hb : (digitChar (n % 10)).toNat = 48 + n % 10 := toNat_digitChar _ (by omega)
  show ∃ tail, candsM (digitChar (n / 10) :: digitChar (n % 10) :: r) = (n, r) :: tail ∧ _
  unfold candsM
  dsimp only
  rw [ha, hb]
  by_cases h10 : 10 ≤ n
  · rw [if_pos ⟨by omega, by omega, by omega⟩, if_neg (by omega), if_pos (by omega)]
    refine ⟨[(dvalN (48 + n / 10), digitChar (n % 10) :: r)], ?_, Or.inr ⟨dvalN (48 + n / 10), rfl⟩⟩
    simp only [List.nil_append, List.cons_append, List.cons.injEq, Prod.mk.injEq, and_true]
    simp only [dvalN]
    omega
  · rw [if_neg (by omega), if_pos ⟨by omega, by omega, by omega⟩, if_neg (by omega)]
    refine ⟨[], ?_, Or.inl rfl⟩
    simp only [List.append_nil, List.nil_append, List.cons.injEq, Prod.mk.injEq, and_true]
    rw [dvalN]; omega

theorem firstSome_cons_some {α β : Type} (f : α → Option β) (a : α) (l : List α) (b : β)
    (h : f a = some b) : firstSome f (a :: l) = some b := by
  unfold firstSome
  rw [h]

theorem matchToks_nil_nil (acc : PF) : matchToks [] [] acc = some acc := rfl

theorem matchToks_nil_cons (a : Char) (r : List Char) (acc : PF) :
    matchToks [] (a :: r) acc = none := rfl

theorem matchToks_lit_eq (c : Char) (ts : List Tok) (r : List Char) (acc : PF) :
    matchToks (.lit c :: ts) (c :: r) acc = matchToks ts r acc := by
  unfold matchToks
  dsimp only
  rw [if_pos rfl]
  exact matchToks.eq_def ts r acc

theorem matchToks_lit_ne (c a : Char) (ts : List Tok) (r : List Char) (acc : PF)
    (h : ¬ a.toNat = c.toNat) : matchToks (.lit c :: ts) (a :: r) acc = none := by
  unfold matchToks
  dsimp only
  rw [if_neg h]

theorem wsRun_cons_nonspace (a : Char) (r : List Char) (h : isSpaceC a = false) :
    wsRun (a :: r) = 0 := by
  unfold wsRun
  rw [h]
  simp

theorem matchToks_ws_nonspace (a : Char) (ts : List Tok) (r : List Char) (acc : PF)
    (h : isSpaceC a = false) : matchToks (.ws :: ts) (a :: r) acc = none := by
  unfold matchToks
  rw [wsSplits, wsRun_cons_nonspace a r h]
  rfl

theorem matchToks_ws_step (ts : List Tok) (s : List Char) (acc : PF) (h : wsRun s = 0) :
    matchToks (.ws :: ts) (' ' :: s) acc = matchToks ts s acc := by
  conv_lhs => unfold matchToks
  have h1 : wsRun (' ' :: s) = 1 := by
    unfold wsRun
    rw [show isSpaceC ' ' = true from rfl]
    simp [h]
  rw [wsSplits, h1]
  show firstSome (fun k => matchToks ts ((' ' :: s).drop k) acc) [1] = matchToks ts s acc
  unfold firstSome
  simp only [List.drop_succ_cons, List.drop_zero]
  cases hm : matchToks ts s acc <;> simp [hm, firstSome]

theorem wsRun_mon3 (m : Nat) (h1 : 1 ≤ m) (h2 : m ≤ 12) (r : List Char) :
    wsRun (mon3 m ++ r) = 0 := by
  interval_cases m <;> rfl

theorem wsRun_pad2 (n : Nat) (h : n < 100) (r : List Char) :
    wsRun (pad2 n ++ r) = 0 :=
  wsRun_cons_nonspace _ _ (digitChar_not_space _ (by omega))

theorem wsRun_year4 (n : Nat) (h : n ≤ 9999) (r : List Char) :
    wsRun (year4 n ++ r) = 0 :=
  wsRun_cons_nonspace _ _ (digitChar_not_space _ (by omega))

/-- A day directive followed by a literal the input does not continue with
fails on a zero-padded day: both regex candidates die at the literal. -/
theorem matchToks_d_lit_fails (c : Char) (ts : List Tok) (n : Nat) (h1 : 1 ≤ n) (h2 : n ≤ 31)
    (a : Char) (r : List Char) (acc : PF) (hc : c.toNat < 48) (ha : ¬ a.toNat = c.toNat) :
    matchToks (.d :: .lit c :: ts) (pad2 n ++ a :: r) acc = none := by
  obtain ⟨tail, hsh, htl⟩ := candsD_pad2_shape n h1 h2 (a :: r)
  unfold matchToks
  rw [hsh]
  apply firstSome_eq_none
  intro p hp
  rcases List.mem_cons.mp hp with hp | hp
  · subst hp
    exact matchToks_lit_ne c a _ r _ ha
  · rcases htl with htl | ⟨v, htl⟩
    · subst htl; simp at hp
    · subst htl
      simp only [List.mem_singleton] at hp
      subst hp
      apply matchToks_lit_ne
      rw [toNat_digitChar _ (by omega)]
      omega

/-- A day directive followed by a whitespace directive fails when the
input continues with a non-space character. -/
theorem matchToks_d_ws_fails (ts : List Tok) (n : Nat) (h1 : 1 ≤ n) (h2 : n ≤ 31)
    (a : Char) (r : List Char) (acc : PF) (ha : isSpaceC a = false) :
    matchToks (.d :: .ws :: ts) (pad2 n ++ a :: r) acc = none := by
  obtain ⟨tail, hsh, htl⟩ := candsD_pad2_shape n h1 h2 (a :: r)
  unfold matchToks
  rw [hsh]
  apply firstSome_eq_none
  intro p hp
  rcases List.mem_cons.mp hp with hp | hp
  · subst hp
    exact matchToks_ws_nonspace a _ r _ ha
  · rcases htl with htl | ⟨v, htl⟩
    · subst htl; simp at hp
    · subst htl
      simp only [List.mem_singleton] at hp
      subst hp
      exact matchToks_ws_nonspace _ _ _ _ (digitChar_not_space _ (by omega))

theorem firstSome_cons_none {α β : Type} (f : α → Option β) (a : α) (l : List α)
    (h : f a = none) : firstSome f (a :: l) = firstSome f l := by
  conv_lhs => unfold firstSome
  rw [h]

theorem matchToks_bigY_none (ts : List Tok) (s : List Char) (acc : PF)
    (h : candsY4 s = []) : matchToks (.bigY :: ts) s acc = none := by
  conv_lhs => unfold matchToks
  rw [h]
  rfl

theorem tail_dash_b_dash_y2 (mm yy : Nat) (h3 : 1 ≤ mm) (h4 : mm ≤ 12) (h5 : yy < 100)
    (acc : PF) :
    matchToks [.lit '-', .b, .lit '-', .y] ('-' :: (mon3 mm ++ '-' :: pad2 yy)) acc
      = some { acc with monv := some mm, y2 := some yy } := by
  rw [matchToks_lit_eq]
  conv_lhs => unfold matchToks
  rw [candsB_mon3 mm h3 h4]
  apply firstSome_cons_some
  show matchToks [.lit '-', .y] ('-' :: pad2 yy) { acc with monv := some mm } = _
  rw [matchToks_lit_eq]
  conv_lhs => unfold matchToks
  have hy := candsY2_pad2 yy h5 []
  rw [List.append_nil] at hy
  rw [hy]
  apply firstSome_cons_some
  exact matchToks_nil_nil _

theorem tail_dash_b_dash_y4 (mm yy : Nat) (h3 : 1 ≤ mm) (h4 : mm ≤ 12) (h5 : yy ≤ 9999)
    (acc : PF) :
    matchToks [.lit '-', .b, .lit '-', .bigY] ('-' :: (mon3 mm ++ '-' :: year4 yy)) acc
      = some { acc with monv := some mm, y4 := some yy } := by
  rw [matchToks_lit_eq]
  conv_lhs => unfold matchToks
  rw [candsB_mon3 mm h3 h4]
  apply firstSome_cons_some
  show matchToks [.lit '-', .bigY] ('-' :: year4 yy) { acc with monv := some mm } = _
  rw [matchToks_lit_eq]
  conv_lhs => unfold matchToks
  have hy := candsY4_year4 yy h5 []
  rw [List.append_nil] at hy
  rw [hy]
  apply firstSome_cons_some
  exact matchToks_nil_nil _

theorem tail_dash_b_dash_y2_fails_y4 (mm yy : Nat) (h3 : 1 ≤ mm) (h4 : mm ≤ 12)
    (h5 : yy ≤ 9999) (acc : PF) :
    matchToks [.lit '-', .b, .lit '-', .y] ('-' :: (mon3 mm ++ '-' :: year4 yy)) acc = none := by
  rw [matchToks_lit_eq]
  conv_lhs => unfold matchToks
  rw [candsB_mon3 mm h3 h4]
  rw [firstSome_cons_none _ _ _ ?_]
  · rfl
  show matchToks [.lit '-', .y] ('-' :: year4 yy) { acc with monv := some mm } = none
  rw [matchToks_lit_eq]
  conv_lhs => unfold matchToks
  rw [show year4 yy = pad2 (yy / 100) ++ pad2 (yy % 100) from rfl]
  rw [candsY2_pad2 (yy / 100) (by omega) (pad2 (yy % 100))]
  rw [firstSome_cons_none _ _ _ ?_]
  · rfl
  exact matchToks_nil_cons _ _ _

theorem tail_slash_m_slash_y4 (mm yy : Nat) (h3 : 1 ≤ mm) (h4 : mm ≤ 12) (h5 : yy ≤ 9999)
    (acc : PF) :
    matchToks [.lit '/', .m, .lit '/', .bigY] ('/' :: (pad2 mm ++ '/' :: year4 yy)) acc
      = some { acc with monv := some mm, y4 := some yy } := by
  rw [matchToks_lit_eq]
  conv_lhs => unfold matchToks
  obtain ⟨tail, hsh, _⟩ := candsM_pad2_shape mm h3 h4 ('/' :: year4 yy)
  rw [hsh]
  apply firstSome_cons_some
  show matchToks [.lit '/', .bigY] ('/' :: year4 yy) { acc with monv := some mm } = _
  rw [matchToks_lit_eq]
  conv_lhs => unfold matchToks
  have hy := candsY4_year4 yy h5 []
  rw [List.append_nil] at hy
  rw [hy]
  apply firstSome_cons_some
  exact matchToks_nil_nil _

theorem tail_slash_m_slash_y2 (mm yy : Nat) (h3 : 1 ≤ mm) (h4 : mm ≤ 12) (h5 : yy < 100)
    (acc : PF) :
    matchToks [.lit '/', .m, .lit '/', .y] ('/' :: (pad2 mm ++ '/' :: pad2 yy)) acc
      = some { acc with monv := some mm, y2 := some yy } := by
  rw [matchToks_lit_eq]
  conv_lhs => unfold matchToks
  obtain ⟨tail, hsh, _⟩ := candsM_pad2_shape mm h3 h4 ('/' :: pad2 yy)
  rw [hsh]
  apply firstSome_cons_some
  show matchToks [.lit '/', .y] ('/' :: pad2 yy) { acc with monv := some mm } = _
  rw [matchToks_lit_eq]
  conv_lhs => unfold matchToks
  have hy := candsY2_pad2 yy h5 []
  rw [List.append_nil] at hy
  rw [hy]
  apply firstSome_cons_some
  exact matchToks_nil_nil _

theorem tail_slash_m_slash_y4_fails_y2 (mm yy : Nat) (h3 : 1 ≤ mm) (h4 : mm ≤ 12)
    (h5 : yy < 100) (acc : PF) :
    matchToks [.lit '/', .m, .lit '/', .bigY] ('/' :: (pad2 mm ++ '/' :: pad2 yy)) acc
      = none := by
  rw [matchToks_lit_eq]
  conv_lhs => unfold matchToks
  obtain ⟨tail, hsh, htl⟩ := candsM_pad2_shape mm h3 h4 ('/' :: pad2 yy)
  rw [hsh]
  apply firstSome_eq_none
  intro p hp
  rcases List.mem_cons.mp hp with hp | hp
  · subst hp
    show matchToks [.lit '/', .bigY] ('/' :: pad2 yy) _ = none
    rw [matchToks_lit_eq]
    exact matchToks_bigY_none _ _ _ (candsY4_pad2_end yy)
  · rcases htl with htl | ⟨v, htl⟩
    · subst htl; simp at hp
    · subst htl
      simp only [List.mem_singleton] at hp
      subst hp
      apply matchToks_lit_ne
      rw [toNat_digitChar _ (by omega), show Char.toNat '/' = 47 from rfl]
      omega

theorem tail_ws_b_ws_y4 (mm yy : Nat) (h3 : 1 ≤ mm) (h4 : mm ≤ 12) (h5 : yy ≤ 9999)
    (acc : PF) :
    matchToks [.ws, .b, .ws, .bigY] (' ' :: (mon3 mm ++ ' ' :: year4 yy)) acc
      = some { acc with monv := some mm, y4 := some yy } := by
  rw [matchToks_ws_step _ _ _ (wsRun_mon3 mm h3 h4 _)]
  conv_lhs => unfold matchToks
  rw [candsB_mon3 mm h3 h4]
  apply firstSome_cons_some
  show matchToks [.ws, .bigY] (' ' :: year4 yy) { acc with monv := some mm } = _
  rw [matchToks_ws_step _ _ _ (by
    have := wsRun_year4 yy h5 []
    rwa [List.append_nil] at this)]
  conv_lhs => unfold matchToks
  have hy := candsY4_year4 yy h5 []
  rw [List.append_nil] at hy
  rw [hy]
  apply firstSome_cons_some
  exact matchToks_nil_nil _

theorem tail_ws_b_ws_y2 (mm yy : Nat) (h3 : 1 ≤ mm) (h4 : mm ≤ 12) (h5 : yy < 100)
    (acc : PF) :
    matchToks [.ws, .b, .ws, .y] (' ' :: (mon3 mm ++ ' ' :: pad2 yy)) acc
      = some { acc with monv := some mm, y2 := some yy } := by
  rw [matchToks_ws_step _ _ _ (wsRun_mon3 mm h3 h4 _)]
  conv_lhs => unfold matchToks
  rw [candsB_mon3 mm h3 h4]
  apply firstSome_cons_some
  show matchToks [.ws, .y] (' ' :: pad2 yy) { acc with monv := some mm } = _
  rw [matchToks_ws_step _ _ _ (by
    have := wsRun_pad2 yy h5 []
    rwa [List.append_nil] at this)]
  conv_lhs => unfold matchToks
  have hy := candsY2_pad2 yy h5 []
  rw [List.append_nil] at hy
  rw [hy]
  apply firstSome_cons_some
  exact matchToks_nil_nil _

theorem tail_ws_b_ws_y4_fails_y2 (mm yy : Nat) (h3 : 1 ≤ mm) (h4 : mm ≤ 12) (h5 : yy < 100)
    (acc : PF) :
    matchToks [.ws, .b, .ws, .bigY] (' ' :: (mon3 mm ++ ' ' :: pad2 yy)) acc = none := by
  rw [matchToks_ws_step _ _ _ (wsRun_mon3 mm h3 h4 _)]
  conv_lhs => unfold matchToks
  rw [candsB_mon3 mm h3 h4]
  rw [firstSome_cons_none _ _ _ ?_]
  · rfl
  show matchToks [.ws, .bigY] (' ' :: pad2 yy) { acc with monv := some mm } = none
  rw [matchToks_ws_step _ _ _ (by
    have := wsRun_pad2 yy h5 []
    rwa [List.append_nil] at this)]
  exact matchToks_bigY_none _ _ _ (candsY4_pad2_end yy)

theorem matchToks_d_fails (ts : List Tok) (n : Nat) (h1 : 1 ≤ n) (h2 : n ≤ 31)
    (r : List Char) (acc : PF)
    (hmain : matchToks ts r { acc with dayv := some n } = none)
    (hspur : ∀ v, matchToks ts (digitChar (n % 10) :: r) { acc with dayv := some v } = none) :
    matchToks (.d :: ts) (pad2 n ++ r) acc = none := by
  obtain ⟨tail, hsh, htl⟩ := candsD_pad2_shape n h1 h2 r
  conv_lhs => unfold matchToks
  rw [hsh]
  apply firstSome_eq_none
  intro p hp
  rcases List.mem_cons.mp hp with hp | hp
  · subst hp
    exact hmain
  · rcases htl with htl | ⟨v, htl⟩
    · subst htl; simp at hp
    · subst htl
      simp only [List.mem_singleton] at hp
      subst hp
      exact hspur v

theorem tail_dash_m_dash_d (mm dd : Nat) (h1 : 1 ≤ mm) (h2 : mm ≤ 12) (h3 : 1 ≤ dd)
    (h4 : dd ≤ 31) (acc : PF) :
    matchToks [.lit '-', .m, .lit '-', .d] ('-' :: (pad2 mm ++ '-' :: pad2 dd)) acc
      = some { acc with monv := some mm, dayv := some dd } := by
  rw [matchToks_lit_eq]
  conv_lhs => unfold matchToks
  obtain ⟨tail, hsh, _⟩ := candsM_pad2_shape mm h1 h2 ('-' :: pad2 dd)
  rw [hsh]
  apply firstSome_cons_some
  show matchToks [.lit '-', .d] ('-' :: pad2 dd) { acc with monv := some mm } = _
  rw [matchToks_lit_eq]
  conv_lhs => unfold matchToks
  obtain ⟨tail2, hsh2, _⟩ := candsD_pad2_shape dd h3 h4 []
  rw [List.append_nil] at hsh2
  rw [hsh2]
  apply firstSome_cons_some
  exact matchToks_nil_nil _

theorem fmt1_success (dd mm yy : Nat) (h1 : 1 ≤ dd) (h2 : dd ≤ 31) (h3 : 1 ≤ mm)
    (h4 : mm ≤ 12) (h5 : yy < 100) :
    matchToks [.d, .lit '-', .b, .lit '-', .y] (pad2 dd ++ '-' :: (mon3 mm ++ '-' :: pad2 yy)) {}
      = some ⟨some dd, some mm, some yy, none⟩ := by
  obtain ⟨tail, hsh, _⟩ := candsD_pad2_shape dd h1 h2 _
  conv_lhs => unfold matchToks
  rw [hsh]
  apply firstSome_cons_some
  exact tail_dash_b_dash_y2 mm yy h3 h4 h5 _

theorem fmt2_success (dd mm yy : Nat) (h1 : 1 ≤ dd) (h2 : dd ≤ 31) (h3 : 1 ≤ mm)
    (h4 : mm ≤ 12) (h5 : yy ≤ 9999) :
    matchToks [.d, .lit '-', .b, .lit '-', .bigY]
      (pad2 dd ++ '-' :: (mon3 mm ++ '-' :: year4 yy)) {}
      = some ⟨some dd, some mm, none, some yy⟩ := by
  obtain ⟨tail, hsh, _⟩ := candsD_pad2_shape dd h1 h2 _
  conv_lhs => unfold matchToks
  rw [hsh]
  apply firstSome_cons_some
  exact tail_dash_b_dash_y4 mm yy h3 h4 h5 _

theorem fmt3_success (dd mm yy : Nat) (h1 : 1 ≤ dd) (h2 : dd ≤ 31) (h3 : 1 ≤ mm)
    (h4 : mm ≤ 12) (h5 : yy ≤ 9999) :
    matchToks [.d, .lit '/', .m, .lit '/', .bigY]
      (pad2 dd ++ '/' :: (pad2 mm ++ '/' :: year4 yy)) {}
      = some ⟨some dd, some mm, none, some yy⟩ := by
  obtain ⟨tail, hsh, _⟩ := candsD_pad2_shape dd h1 h2 _
  conv_lhs => unfold matchToks
  rw [hsh]
  apply firstSome_cons_some
  exact tail_slash_m_slash_y4 mm yy h3 h4 h5 _

theorem fmt4_success (dd mm yy : Nat) (h1 : 1 ≤ dd) (h2 : dd ≤ 31) (h3 : 1 ≤ mm)
    (h4 : mm ≤ 12) (h5 : yy < 100) :
    matchToks [.d, .lit '/', .m, .lit '/', .y]
      (pad2 dd ++ '/' :: (pad2 mm ++ '/' :: pad2 yy)) {}
      = some ⟨some dd, some mm, some yy, none⟩ := by
  obtain ⟨tail, hsh, _⟩ := candsD_pad2_shape dd h1 h2 _
  conv_lhs => unfold matchToks
  rw [hsh]
  apply firstSome_cons_some
  exact tail_slash_m_slash_y2 mm yy h3 h4 h5 _

theorem fmt5_success (dd mm yy : Nat) (h1 : 1 ≤ dd) (h2 : dd ≤ 31) (h3 : 1 ≤ mm)
    (h4 : mm ≤ 12) (h5 : yy ≤ 9999) :
    matchToks [.bigY, .lit '-', .m, .lit '-', .d]
      (year4 yy ++ '-' :: (pad2 mm ++ '-' :: pad2 dd)) {}
      = some ⟨some dd, some mm, none, some yy⟩ := by
  conv_lhs => unfold matchToks
  rw [candsY4_year4 yy h5 _]
  apply firstSome_cons_some
  exact tail_dash_m_dash_d mm dd h3 h4 h1 h2 _

theorem fmt6_success (dd mm yy : Nat) (h1 : 1 ≤ dd) (h2 : dd ≤ 31) (h3 : 1 ≤ mm)
    (h4 : mm ≤ 12) (h5 : yy ≤ 9999) :
    matchToks [.d, .ws, .b, .ws, .bigY]
      (pad2 dd ++ ' ' :: (mon3 mm ++ ' ' :: year4 yy)) {}
      = some ⟨some dd, some mm, none, some yy⟩ := by
  obtain ⟨tail, hsh, _⟩ := candsD_pad2_shape dd h1 h2 _
  conv_lhs => unfold matchToks
  rw [hsh]
  apply firstSome_cons_some
  exact tail_ws_b_ws_y4 mm yy h3 h4 h5 _

theorem fmt7_success (dd mm yy : Nat) (h1 : 1 ≤ dd) (h2 : dd ≤ 31) (h3 : 1 ≤ mm)
    (h4 : mm ≤ 12) (h5 : yy < 100) :
    matchToks [.d, .ws, .b, .ws, .y]
      (pad2 dd ++ ' ' :: (mon3 mm ++ ' ' :: pad2 yy)) {}
      = some ⟨some dd, some mm, some yy, none⟩ := by
  obtain ⟨tail, hsh, _⟩ := candsD_pad2_shape dd h1 h2 _
  conv_lhs => unfold matchToks
  rw [hsh]
  apply firstSome_cons_some
  exact tail_ws_b_ws_y2 mm yy h3 h4 h5 _

theorem fmt1_fails_y4 (dd mm yy : Nat) (h1 : 1 ≤ dd) (h2 : dd ≤ 31) (h3 : 1 ≤ mm)
    (h4 : mm ≤ 12) (h5 : yy ≤ 9999) :
    matchToks [.d, .lit '-', .b, .lit '-', .y]
      (pad2 dd ++ '-' :: (mon3 mm ++ '-' :: year4 yy)) {} = none := by
  apply matchToks_d_fails _ dd h1 h2
  · exact tail_dash_b_dash_y2_fails_y4 mm yy h3 h4 h5 _
  · intro v
    apply matchToks_lit_ne
    rw [toNat_digitChar _ (by omega), show Char.toNat '-' = 45 from rfl]
    omega

theorem fmt3_fails_y2 (dd mm yy : Nat) (h1 : 1 ≤ dd) (h2 : dd ≤ 31) (h3 : 1 ≤ mm)
    (h4 : mm ≤ 12) (h5 : yy < 100) :
    matchToks [.d, .lit '/', .m, .lit '/', .bigY]
      (pad2 dd ++ '/' :: (pad2 mm ++ '/' :: pad2 yy)) {} = none := by
  apply matchToks_d_fails _ dd h1 h2
  · exact tail_slash_m_slash_y4_fails_y2 mm yy h3 h4 h5 _
  · intro v
    apply matchToks_lit_ne
    rw [toNat_digitChar _ (by omega), show Char.toNat '/' = 47 from rfl]
    omega

theorem fmt6_fails_y2 (dd mm yy : Nat) (h1 : 1 ≤ dd) (h2 : dd ≤ 31) (h3 : 1 ≤ mm)
    (h4 : mm ≤ 12) (h5 : yy < 100) :
    matchToks [.d, .ws, .b, .ws, .bigY]
      (pad2 dd ++ ' ' :: (mon3 mm ++ ' ' :: pad2 yy)) {} = none := by
  apply matchToks_d_fails _ dd h1 h2
  · exact tail_ws_b_ws_y4_fails_y2 mm yy h3 h4 h5 _
  · intro v
    exact matchToks_ws_nonspace _ _ _ _ (digitChar_not_space _ (by omega))

theorem daysInMonth_le_31 (y m : Nat) : daysInMonth y m ≤ 31 := by
  unfold daysInMonth
  split_ifs <;> first | omega | (split <;> omega)

theorem buildYMD_y2_eval (dd mm y2v : Nat) :
    buildYMD ⟨some dd, some mm, some y2v, none⟩
      = if 1 ≤ pivotY2 y2v ∧ pivotY2 y2v ≤ 9999 ∧ 1 ≤ mm ∧ mm ≤ 12 ∧ 1 ≤ dd
          ∧ dd ≤ daysInMonth (pivotY2 y2v) mm
        then some ⟨pivotY2 y2v, mm, dd⟩ else none := rfl

theorem buildYMD_y4_eval (dd mm y4v : Nat) :
    buildYMD ⟨some dd, some mm, none, some y4v⟩
      = if 1 ≤ y4v ∧ y4v ≤ 9999 ∧ 1 ≤ mm ∧ mm ≤ 12 ∧ 1 ≤ dd ∧ dd ≤ daysInMonth y4v mm
        then some ⟨y4v, mm, dd⟩ else none := rfl

theorem pivotY2_window (y : Nat) (h1 : 1969 ≤ y) (h2 : y ≤ 2068) : pivotY2 (y % 100) = y := by
  unfold pivotY2
  split <;> omega

theorem toDtStr_of_parse (ty : Nat) (k : Nat) (hk : k < 10) (t : List Char) (c : Nat)
    (hc : c < 10) (hlast : (digitChar k :: t).getLast? = some (digitChar c)) (dt : YMD)
    (hparse : parseWithFormats (digitChar k :: t) = some dt) :
    toDtStr ty (digitChar k :: t) = some dt := by
  unfold toDtStr
  have hs : pyStrip (digitChar k :: t) = digitChar k :: t := by
    unfold pyStrip
    rw [stripLead_cons_digit k hk]
    exact stripTrail_id_of_getLast _ _ hlast (digitChar_not_space c hc)
  rw [hs]
  rw [if_neg (by simp)]
  rw [wdStrip_digit k hk]
  dsimp only
  rw [hparse]

theorem bindBuild_none (f : List Tok) (s : List Char) (h : matchToks f s {} = none) :
    (matchToks f s {}).bind buildYMD = none := by
  rw [h]
  rfl

theorem firstSome_append_none {α β : Type} (f : α → Option β) (l1 l2 : List α)
    (h : ∀ a ∈ l1, f a = none) : firstSome f (l1 ++ l2) = firstSome f l2 := by
  induction l1 with
  | nil => rfl
  | cons a t ih =>
    rw [List.cons_append, firstSome_cons_none f a _ (h a (by simp))]
    exact ih (fun x hx => h x (by simp [hx]))

theorem parseWF_g1 (dd mm yy : Nat) (h1 : 1 ≤ dd) (h2 : dd ≤ 31) (h3 : 1 ≤ mm)
    (h4 : mm ≤ 12) (hy1 : 1969 ≤ yy) (hy2 : yy ≤ 2068) (hdm : dd ≤ daysInMonth yy mm) :
    parseWithFormats (pad2 dd ++ '-' :: (mon3 mm ++ '-' :: pad2 (yy % 100)))
      = some ⟨yy, mm, dd⟩ := by
  unfold parseWithFormats fmtList
  apply firstSome_cons_some
  show (matchToks [Tok.d, Tok.lit '-', Tok.b, Tok.lit '-', Tok.y]
      (pad2 dd ++ '-' :: (mon3 mm ++ '-' :: pad2 (yy % 100))) {}).bind buildYMD
      = some (⟨yy, mm, dd⟩ : YMD)
  rw [fmt1_success dd mm (yy % 100) h1 h2 h3 h4 (by omega)]
  show buildYMD ⟨some dd, some mm, some (yy % 100), none⟩ = some ⟨yy, mm, dd⟩
  rw [buildYMD_y2_eval, pivotY2_window yy hy1 hy2]
  exact if_pos ⟨by omega, by omega, h3, h4, h1, hdm⟩

theorem parseWF_g2 (dd mm yy : Nat) (h1 : 1 ≤ dd) (h2 : dd ≤ 31) (h3 : 1 ≤ mm)
    (h4 : mm ≤ 12) (hy1 : 1969 ≤ yy) (hy2 : yy ≤ 2068) (hdm : dd ≤ daysInMonth yy mm) :
    parseWithFormats (pad2 dd ++ '-' :: (mon3 mm ++ '-' :: year4 yy))
      = some ⟨yy, mm, dd⟩ := by
  have hf1 : matchToks [Tok.d, Tok.lit '-', Tok.b, Tok.lit '-', Tok.y]
      (pad2 dd ++ '-' :: (mon3 mm ++ '-' :: year4 yy)) {} = none :=
    fmt1_fails_y4 dd mm yy h1 h2 h3 h4 (by omega)
  unfold parseWithFormats
  rw [show fmtList = [[Tok.d, Tok.lit '-', Tok.b, Tok.lit '-', Tok.y]]
      ++ [ [Tok.d, Tok.lit '-', Tok.b, Tok.lit '-', Tok.bigY]
         , [Tok.d, Tok.lit '/', Tok.m, Tok.lit '/', Tok.bigY]
         , [Tok.d, Tok.lit '/', Tok.m, Tok.lit '/', Tok.y]
         , [Tok.bigY, Tok.lit '-', Tok.m, Tok.lit '-', Tok.d]
         , [Tok.d, Tok.ws, Tok.b, Tok.ws, Tok.bigY]
         , [Tok.d, Tok.ws, Tok.b, Tok.ws, Tok.y] ] from rfl]
  rw [firstSome_append_none]
  · apply firstSome_cons_some
    show (matchToks [Tok.d, Tok.lit '-', Tok.b, Tok.lit '-', Tok.bigY]
        (pad2 dd ++ '-' :: (mon3 mm ++ '-' :: year4 yy)) {}).bind buildYMD
        = some (⟨yy, mm, dd⟩ : YMD)
    rw [fmt2_success dd mm yy h1 h2 h3 h4 (by omega)]
    show buildYMD ⟨some dd, some mm, none, some yy⟩ = some ⟨yy, mm, dd⟩
    rw [buildYMD_y4_eval]
    exact if_pos ⟨by omega, by omega, h3, h4, h1, hdm⟩
  · intro a ha
    fin_cases ha
    exact bindBuild_none _ _ hf1

theorem parseWF_g3 (dd mm yy : Nat) (h1 : 1 ≤ dd) (h2 : dd ≤ 31) (h3 : 1 ≤ mm)
    (h4 : mm ≤ 12) (hy1 : 1969 ≤ yy) (hy2 : yy ≤ 2068) (hdm : dd ≤ daysInMonth yy mm) :
    parseWithFormats (pad2 dd ++ '/' :: (pad2 mm ++ '/' :: year4 yy))
      = some ⟨yy, mm, dd⟩ := by
  have hf1 : matchToks [Tok.d, Tok.lit '-', Tok.b, Tok.lit '-', Tok.y]
      (pad2 dd ++ '/' :: (pad2 mm ++ '/' :: year4 yy)) {} = none :=
    matchToks_d_lit_fails '-' _ dd h1 h2 '/' _ {} (by decide) (by decide)
  have hf2 : matchToks [Tok.d, Tok.lit '-', Tok.b, Tok.lit '-', Tok.bigY]
      (pad2 dd ++ '/' :: (pad2 mm ++ '/' :: year4 yy)) {} = none :=
    matchToks_d_lit_fails '-' _ dd h1 h2 '/' _ {} (by decide) (by decide)
  unfold parseWithFormats
  rw [show fmtList = [ [Tok.d, Tok.lit '-', Tok.b, Tok.lit '-', Tok.y]
         , [Tok.d, Tok.lit '-', Tok.b, Tok.lit '-', Tok.bigY] ]
      ++ [ [Tok.d, Tok.lit '/', Tok.m, Tok.lit '/', Tok.bigY]
         , [Tok.d, Tok.lit '/', Tok.m, Tok.lit '/', Tok.y]
         , [Tok.bigY, Tok.lit '-', Tok.m, Tok.lit '-', Tok.d]
         , [Tok.d, Tok.ws, Tok.b, Tok.ws, Tok.bigY]
         , [Tok.d, Tok.ws, Tok.b, Tok.ws, Tok.y] ] from rfl]
  rw [firstSome_append_none]
  · apply firstSome_cons_some
    show (matchToks [Tok.d, Tok.lit '/', Tok.m, Tok.lit '/', Tok.bigY]
        (pad2 dd ++ '/' :: (pad2 mm ++ '/' :: year4 yy)) {}).bind buildYMD
        = some (⟨yy, mm, dd⟩ : YMD)
    rw [fmt3_success dd mm yy h1 h2 h3 h4 (by omega)]
    show buildYMD ⟨some dd, some mm, none, some yy⟩ = some ⟨yy, mm, dd⟩
    rw [buildYMD_y4_eval]
    exact if_pos ⟨by omega, by omega, h3, h4, h1, hdm⟩
  · intro a ha
    fin_cases ha
    · exact bindBuild_none _ _ hf1
    · exact bindBuild_none _ _ hf2

theorem parseWF_g4 (dd mm yy : Nat) (h1 : 1 ≤ dd) (h2 : dd ≤ 31) (h3 : 1 ≤ mm)
    (h4 : mm ≤ 12) (hy1 : 1969 ≤ yy) (hy2 : yy ≤ 2068) (hdm : dd ≤ daysInMonth yy mm) :
    parseWithFormats (pad2 dd ++ '/' :: (pad2 mm ++ '/' :: pad2 (yy % 100)))
      = some ⟨yy, mm, dd⟩ := by
  have hf1 : matchToks [Tok.d, Tok.lit '-', Tok.b, Tok.lit '-', Tok.y]
      (pad2 dd ++ '/' :: (pad2 mm ++ '/' :: pad2 (yy % 100))) {} = none :=
    matchToks_d_lit_fails '-' _ dd h1 h2 '/' _ {} (by decide) (by decide)
  have hf2 : matchToks [Tok.d, Tok.lit '-', Tok.b, Tok.lit '-', Tok.bigY]
      (pad2 dd ++ '/' :: (pad2 mm ++ '/' :: pad2 (yy % 100))) {} = none :=
    matchToks_d_lit_fails '-' _ dd h1 h2 '/' _ {} (by decide) (by decide)
  have hf3 : matchToks [Tok.d, Tok.lit '/', Tok.m, Tok.lit '/', Tok.bigY]
      (pad2 dd ++ '/' :: (pad2 mm ++ '/' :: pad2 (yy % 100))) {} = none :=
    fmt3_fails_y2 dd mm (yy % 100) h1 h2 h3 h4 (by omega)
  unfold parseWithFormats
  rw [show fmtList = [ [Tok.d, Tok.lit '-', Tok.b, Tok.lit '-', Tok.y]
         , [Tok.d, Tok.lit '-', Tok.b, Tok.lit '-', Tok.bigY]
         , [Tok.d, Tok.lit '/', Tok.m, Tok.lit '/', Tok.bigY] ]
      ++ [ [Tok.d, Tok.lit '/', Tok.m, Tok.lit '/', Tok.y]
         , [Tok.bigY, Tok.lit '-', Tok.m, Tok.lit '-', Tok.d]
         , [Tok.d, Tok.ws, Tok.b, Tok.ws, Tok.bigY]
         , [Tok.d, Tok.ws, Tok.b, Tok.ws, Tok.y] ] from rfl]
  rw [firstSome_append_none]
  · apply firstSome_cons_some
    show (matchToks [Tok.d, Tok.lit '/', Tok.m, Tok.lit '/', Tok.y]
        (pad2 dd ++ '/' :: (pad2 mm ++ '/' :: pad2 (yy % 100))) {}).bind buildYMD
        = some (⟨yy, mm, dd⟩ : YMD)
    rw [fmt4_success dd mm (yy % 100) h1 h2 h3 h4 (by omega)]
    show buildYMD ⟨some dd, some mm, some (yy % 100), none⟩ = some ⟨yy, mm, dd⟩
    rw [buildYMD_y2_eval, pivotY2_window yy hy1 hy2]
    exact if_pos ⟨by omega, by omega, h3, h4, h1, hdm⟩
  · intro a ha
    fin_cases ha
    · exact bindBuild_none _ _ hf1
    · exact bindBuild_none _ _ hf2
    · exact bindBuild_none _ _ hf3

theorem parseWF_g5 (dd mm yy : Nat) (h1 : 1 ≤ dd) (h2 : dd ≤ 31) (h3 : 1 ≤ mm)
    (h4 : mm ≤ 12) (hy1 : 1969 ≤ yy) (hy2 : yy ≤ 2068) (hdm : dd ≤ daysInMonth yy mm) :
    parseWithFormats (year4 yy ++ '-' :: (pad2 mm ++ '-' :: pad2 dd))
      = some ⟨yy, mm, dd⟩ := by
  have hf1 : matchToks [Tok.d, Tok.lit '-', Tok.b, Tok.lit '-', Tok.y]
      (year4 yy ++ '-' :: (pad2 mm ++ '-' :: pad2 dd)) {} = none :=
    matchToks_d_lit_fails '-' _ (yy / 100) (by omega) (by omega)
      (digitChar (yy % 100 / 10)) (digitChar (yy % 100 % 10) :: '-' :: (pad2 mm ++ '-' :: pad2 dd))
      {} (by decide) (by rw [toNat_digitChar _ (by omega), show Char.toNat '-' = 45 from rfl]; omega)
  have hf2 : matchToks [Tok.d, Tok.lit '-', Tok.b, Tok.lit '-', Tok.bigY]
      (year4 yy ++ '-' :: (pad2 mm ++ '-' :: pad2 dd)) {} = none :=
    matchToks_d_lit_fails '-' _ (yy / 100) (by omega) (by omega)
      (digitChar (yy % 100 / 10)) (digitChar (yy % 100 % 10) :: '-' :: (pad2 mm ++ '-' :: pad2 dd))
      {} (by decide) (by rw [toNat_digitChar _ (by omega), show Char.toNat '-' = 45 from rfl]; omega)
  have hf3 : matchToks [Tok.d, Tok.lit '/', Tok.m, Tok.lit '/', Tok.bigY]
      (year4 yy ++ '-' :: (pad2 mm ++ '-' :: pad2 dd)) {} = none :=
    matchToks_d_lit_fails '/' _ (yy / 100) (by omega) (by omega)
      (digitChar (yy % 100 / 10)) (digitChar (yy % 100 % 10) :: '-' :: (pad2 mm ++ '-' :: pad2 dd))
      {} (by decide) (by rw [toNat_digitChar _ (by omega), show Char.toNat '/' = 47 from rfl]; omega)
  have hf4 : matchToks [Tok.d, Tok.lit '/', Tok.m, Tok.lit '/', Tok.y]
      (year4 yy ++ '-' :: (pad2 mm ++ '-' :: pad2 dd)) {} = none :=
    matchToks_d_lit_fails '/' _ (yy / 100) (by omega) (by omega)
      (digitChar (yy % 100 / 10)) (digitChar (yy % 100 % 10) :: '-' :: (pad2 mm ++ '-' :: pad2 dd))
      {} (by decide) (by rw [toNat_digitChar _ (by omega), show Char.toNat '/' = 47 from rfl]; omega)
  unfold parseWithFormats
  rw [show fmtList = [ [Tok.d, Tok.lit '-', Tok.b, Tok.lit '-', Tok.y]
         , [Tok.d, Tok.lit '-', Tok.b, Tok.lit '-', Tok.bigY]
         , [Tok.d, Tok.lit '/', Tok.m, Tok.lit '/', Tok.bigY]
         , [Tok.d, Tok.lit '/', Tok.m, Tok.lit '/', Tok.y] ]
      ++ [ [Tok.bigY, Tok.lit '-', Tok.m, Tok.lit '-', Tok.d]
         , [Tok.d, Tok.ws, Tok.b, Tok.ws, Tok.bigY]
         , [Tok.d, Tok.ws, Tok.b, Tok.ws, Tok.y] ] from rfl]
  rw [firstSome_append_none]
  · apply firstSome_cons_some
    show (matchToks [Tok.bigY, Tok.lit '-', Tok.m, Tok.lit '-', Tok.d]
        (year4 yy ++ '-' :: (pad2 mm ++ '-' :: pad2 dd)) {}).bind buildYMD
        = some (⟨yy, mm, dd⟩ : YMD)
    rw [fmt5_success dd mm yy h1 h2 h3 h4 (by omega)]
    show buildYMD ⟨some dd, some mm, none, some yy⟩ = some ⟨yy, mm, dd⟩
    rw [buildYMD_y4_eval]
    exact if_pos ⟨by omega, by omega, h3, h4, h1, hdm⟩
  · intro a ha
    fin_cases ha
    · exact bindBuild_none _ _ hf1
    · exact bindBuild_none _ _ hf2
    · exact bindBuild_none _ _ hf3
    · exact bindBuild_none _ _ hf4

theorem parseWF_g6 (dd mm yy : Nat) (h1 : 1 ≤ dd) (h2 : dd ≤ 31) (h3 : 1 ≤ mm)
    (h4 : mm ≤ 12) (hy1 : 1969 ≤ yy) (hy2 : yy ≤ 2068) (hdm : dd ≤ daysInMonth yy mm) :
    parseWithFormats (pad2 dd ++ ' ' :: (mon3 mm ++ ' ' :: year4 yy))
      = some ⟨yy, mm, dd⟩ := by
  have hf1 : matchToks [Tok.d, Tok.lit '-', Tok.b, Tok.lit '-', Tok.y]
      (pad2 dd ++ ' ' :: (mon3 mm ++ ' ' :: year4 yy)) {} = none :=
    matchToks_d_lit_fails '-' _ dd h1 h2 ' ' _ {} (by decide) (by decide)
  have hf2 : matchToks [Tok.d, Tok.lit '-', Tok.b, Tok.lit '-', Tok.bigY]
      (pad2 dd ++ ' ' :: (mon3 mm ++ ' ' :: year4 yy)) {} = none :=
    matchToks_d_lit_fails '-' _ dd h1 h2 ' ' _ {} (by decide) (by decide)
  have hf3 : matchToks [Tok.d, Tok.lit '/', Tok.m, Tok.lit '/', Tok.bigY]
      (pad2 dd ++ ' ' :: (mon3 mm ++ ' ' :: year4 yy)) {} = none :=
    matchToks_d_lit_fails '/' _ dd h1 h2 ' ' _ {} (by decide) (by decide)
  have hf4 : matchToks [Tok.d, Tok.lit '/', Tok.m, Tok.lit '/', Tok.y]
      (pad2 dd ++ ' ' :: (mon3 mm ++ ' ' :: year4 yy)) {} = none :=
    matchToks_d_lit_fails '/' _ dd h1 h2 ' ' _ {} (by decide) (by decide)
  have hf5 : matchToks [Tok.bigY, Tok.lit '-', Tok.m, Tok.lit '-', Tok.d]
      (pad2 dd ++ ' ' :: (mon3 mm ++ ' ' :: year4 yy)) {} = none :=
    matchToks_bigY_none _ _ {} (candsY4_pad2_nondigit dd ' ' (by decide) _)
  unfold parseWithFormats
  rw [show fmtList = [ [Tok.d, Tok.lit '-', Tok.b, Tok.lit '-', Tok.y]
         , [Tok.d, Tok.lit '-', Tok.b, Tok.lit '-', Tok.bigY]
         , [Tok.d, Tok.lit '/', Tok.m, Tok.lit '/', Tok.bigY]
         , [Tok.d, Tok.lit '/', Tok.m, Tok.lit '/', Tok.y]
         , [Tok.bigY, Tok.lit '-', Tok.m, Tok.lit '-', Tok.d] ]
      ++ [ [Tok.d, Tok.ws, Tok.b, Tok.ws, Tok.bigY]
         , [Tok.d, Tok.ws, Tok.b, Tok.ws, Tok.y] ] from rfl]
  rw [firstSome_append_none]
  · apply firstSome_cons_some
    show (matchToks [Tok.d, Tok.ws, Tok.b, Tok.ws, Tok.bigY]
        (pad2 dd ++ ' ' :: (mon3 mm ++ ' ' :: year4 yy)) {}).bind buildYMD
        = some (⟨yy, mm, dd⟩ : YMD)
    rw [fmt6_success dd mm yy h1 h2 h3 h4 (by omega)]
    show buildYMD ⟨some dd, some mm, none, some yy⟩ = some ⟨yy, mm, dd⟩
    rw [buildYMD_y4_eval]
    exact if_pos ⟨by omega, by omega, h3, h4, h1, hdm⟩
  · intro a ha
    fin_cases ha
    · exact bindBuild_none _ _ hf1
    · exact bindBuild_none _ _ hf2
    · exact bindBuild_none _ _ hf3
    · exact bindBuild_none _ _ hf4
    · exact bindBuild_none _ _ hf5

theorem parseWF_g7 (dd mm yy : Nat) (h1 : 1 ≤ dd) (h2 : dd ≤ 31) (h3 : 1 ≤ mm)
    (h4 : mm ≤ 12) (hy1 : 1969 ≤ yy) (hy2 : yy ≤ 2068) (hdm : dd ≤ daysInMonth yy mm) :
    parseWithFormats (pad2 dd ++ ' ' :: (mon3 mm ++ ' ' :: pad2 (yy % 100)))
      = some ⟨yy, mm, dd⟩ := by
  have hf1 : matchToks [Tok.d, Tok.lit '-', Tok.b, Tok.lit '-', Tok.y]
      (pad2 dd ++ ' ' :: (mon3 mm ++ ' ' :: pad2 (yy % 100))) {} = none :=
    matchToks_d_lit_fails '-' _ dd h1 h2 ' ' _ {} (by decide) (by decide)
  have hf2 : matchToks [Tok.d, Tok.lit '-', Tok.b, Tok.lit '-', Tok.bigY]
      (pad2 dd ++ ' ' :: (mon3 mm ++ ' ' :: pad2 (yy % 100))) {} = none :=
    matchToks_d_lit_fails '-' _ dd h1 h2 ' ' _ {} (by decide) (by decide)
  have hf3 : matchToks [Tok.d, Tok.lit '/', Tok.m, Tok.lit '/', Tok.bigY]
      (pad2 dd ++ ' ' :: (mon3 mm ++ ' ' :: pad2 (yy % 100))) {} = none :=
    matchToks_d_lit_fails '/' _ dd h1 h2 ' ' _ {} (by decide) (by decide)
  have hf4 : matchToks [Tok.d, Tok.lit '/', Tok.m, Tok.lit '/', Tok.y]
      (pad2 dd ++ ' ' :: (mon3 mm ++ ' ' :: pad2 (yy % 100))) {} = none :=
    matchToks_d_lit_fails '/' _ dd h1 h2 ' ' _ {} (by decide) (by decide)
  have hf5 : matchToks [Tok.bigY, Tok.lit '-', Tok.m, Tok.lit '-', Tok.d]
      (pad2 dd ++ ' ' :: (mon3 mm ++ ' ' :: pad2 (yy % 100))) {} = none :=
    matchToks_bigY_none _ _ {} (candsY4_pad2_nondigit dd ' ' (by decide) _)
  have hf6 : matchToks [Tok.d, Tok.ws, Tok.b, Tok.ws, Tok.bigY]
      (pad2 dd ++ ' ' :: (mon3 mm ++ ' ' :: pad2 (yy % 100))) {} = none :=
    fmt6_fails_y2 dd mm (yy % 100) h1 h2 h3 h4 (by omega)
  unfold parseWithFormats
  rw [show fmtList = [ [Tok.d, Tok.lit '-', Tok.b, Tok.lit '-', Tok.y]
         , [Tok.d, Tok.lit '-', Tok.b, Tok.lit '-', Tok.bigY]
         , [Tok.d, Tok.lit '/', Tok.m, Tok.lit '/', Tok.bigY]
         , [Tok.d, Tok.lit '/', Tok.m, Tok.lit '/', Tok.y]
         , [Tok.bigY, Tok.lit '-', Tok.m, Tok.lit '-', Tok.d]
         , [Tok.d, Tok.ws, Tok.b, Tok.ws, Tok.bigY] ]
      ++ [ [Tok.d, Tok.ws, Tok.b, Tok.ws, Tok.y] ] from rfl]
  rw [firstSome_append_none]
  · apply firstSome_cons_some
    show (matchToks [Tok.d, Tok.ws, Tok.b, Tok.ws, Tok.y]
        (pad2 dd ++ ' ' :: (mon3 mm ++ ' ' :: pad2 (yy % 100))) {}).bind buildYMD
        = some (⟨yy, mm, dd⟩ : YMD)
    rw [fmt7_success dd mm (yy % 100) h1 h2 h3 h4 (by omega)]
    show buildYMD ⟨some dd, some mm, some (yy % 100), none⟩ = some ⟨yy, mm, dd⟩
    rw [buildYMD_y2_eval, pivotY2_window yy hy1 hy2]
    exact if_pos ⟨by omega, by omega, h3, h4, h1, hdm⟩
  · intro a ha
    fin_cases ha
    · exact bindBuild_none _ _ hf1
    · exact bindBuild_none _ _ hf2
    · exact bindBuild_none _ _ hf3
    · exact bindBuild_none _ _ hf4
    · exact bindBuild_none _ _ hf5
    · exact bindBuild_none _ _ hf6

theorem rt_ddMonY2 (ty : Nat) (a : YMD) (hv : validYMD a) (hy1 : 1969 ≤ a.y)
    (hy2 : a.y ≤ 2068) : toDtStr ty (fmtYMD .ddMonY2 a) = some a := by
  obtain ⟨hY1, hY2, hm1, hm2, hd1, hd2⟩ := hv
  have hd31 : a.d ≤ 31 := le_trans hd2 (daysInMonth_le_31 a.y a.m)
  have hlast : (pad2 a.d ++ '-' :: (mon3 a.m ++ '-' :: pad2 (a.y % 100))).getLast?
      = some (digitChar (a.y % 100 % 10)) :=
    getLast?_append_right _ _ _ (getLast?_cons_right _ _ _
      (getLast?_append_right _ _ _ (getLast?_cons_right _ _ _ (getLast?_pad2 _))))
  exact toDtStr_of_parse ty (a.d / 10) (by omega) _ (a.y % 100 % 10) (by omega) hlast a
    (parseWF_g1 a.d a.m a.y hd1 hd31 hm1 hm2 hy1 hy2 hd2)

theorem rt_ddMonY4 (ty : Nat) (a : YMD) (hv : validYMD a) (hy1 : 1969 ≤ a.y)
    (hy2 : a.y ≤ 2068) : toDtStr ty (fmtYMD .ddMonY4 a) = some a := by
  obtain ⟨hY1, hY2, hm1, hm2, hd1, hd2⟩ := hv
  have hd31 : a.d ≤ 31 := le_trans hd2 (daysInMonth_le_31 a.y a.m)
  have hlast : (pad2 a.d ++ '-' :: (mon3 a.m ++ '-' :: year4 a.y)).getLast?
      = some (digitChar (a.y % 100 % 10)) :=
    getLast?_append_right _ _ _ (getLast?_cons_right _ _ _
      (getLast?_append_right _ _ _ (getLast?_cons_right _ _ _ (getLast?_year4 _))))
  exact toDtStr_of_parse ty (a.d / 10) (by omega) _ (a.y % 100 % 10) (by omega) hlast a
    (parseWF_g2 a.d a.m a.y hd1 hd31 hm1 hm2 hy1 hy2 hd2)

theorem rt_ddSlashY4 (ty : Nat) (a : YMD) (hv : validYMD a) (hy1 : 1969 ≤ a.y)
    (hy2 : a.y ≤ 2068) : toDtStr ty (fmtYMD .ddSlashY4 a) = some a := by
  obtain ⟨hY1, hY2, hm1, hm2, hd1, hd2⟩ := hv
  have hd31 : a.d ≤ 31 := le_trans hd2 (daysInMonth_le_31 a.y a.m)
  have hlast : (pad2 a.d ++ '/' :: (pad2 a.m ++ '/' :: year4 a.y)).getLast?
      = some (digitChar (a.y % 100 % 10)) :=
    getLast?_append_right _ _ _ (getLast?_cons_right _ _ _
      (getLast?_append_right _ _ _ (getLast?_cons_right _ _ _ (getLast?_year4 _))))
  exact toDtStr_of_parse ty (a.d / 10) (by omega) _ (a.y % 100 % 10) (by omega) hlast a
    (parseWF_g3 a.d a.m a.y hd1 hd31 hm1 hm2 hy1 hy2 hd2)

theorem rt_ddSlashY2 (ty : Nat) (a : YMD) (hv : validYMD a) (hy1 : 1969 ≤ a.y)
    (hy2 : a.y ≤ 2068) : toDtStr ty (fmtYMD .ddSlashY2 a) = some a := by
  obtain ⟨hY1, hY2, hm1, hm2, hd1, hd2⟩ := hv
  have hd31 : a.d ≤ 31 := le_trans hd2 (daysInMonth_le_31 a.y a.m)
  have hlast : (pad2 a.d ++ '/' :: (pad2 a.m ++ '/' :: pad2 (a.y % 100))).getLast?
      = some (digitChar (a.y % 100 % 10)) :=
    getLast?_append_right _ _ _ (getLast?_cons_right _ _ _
      (getLast?_append_right _ _ _ (getLast?_cons_right _ _ _ (getLast?_pad2 _))))
  exact toDtStr_of_parse ty (a.d / 10) (by omega) _ (a.y % 100 % 10) (by omega) hlast a
    (parseWF_g4 a.d a.m a.y hd1 hd31 hm1 hm2 hy1 hy2 hd2)

theorem rt_isoY4 (ty : Nat) (a : YMD) (hv : validYMD a) (hy1 : 1969 ≤ a.y)
    (hy2 : a.y ≤ 2068) : toDtStr ty (fmtYMD .isoY4 a) = some a := by
  obtain ⟨hY1, hY2, hm1, hm2, hd1, hd2⟩ := hv
  have hd31 : a.d ≤ 31 := le_trans hd2 (daysInMonth_le_31 a.y a.m)
  have hlast : (year4 a.y ++ '-' :: (pad2 a.m ++ '-' :: pad2 a.d)).getLast?
      = some (digitChar (a.d % 10)) :=
    getLast?_append_right _ _ _ (getLast?_cons_right _ _ _
      (getLast?_append_right _ _ _ (getLast?_cons_right _ _ _ (getLast?_pad2 _))))
  exact toDtStr_of_parse ty (a.y / 100 / 10) (by omega) _ (a.d % 10) (by omega) hlast a
    (parseWF_g5 a.d a.m a.y hd1 hd31 hm1 hm2 hy1 hy2 hd2)

theorem rt_ddSpMonY4 (ty : Nat) (a : YMD) (hv : validYMD a) (hy1 : 1969 ≤ a.y)
    (hy2 : a.y ≤ 2068) : toDtStr ty (fmtYMD .ddSpMonY4 a) = some a := by
  obtain ⟨hY1, hY2, hm1, hm2, hd1, hd2⟩ := hv
  have hd31 : a.d ≤ 31 := le_trans hd2 (daysInMonth_le_31 a.y a.m)
  have hlast : (pad2 a.d ++ ' ' :: (mon3 a.m ++ ' ' :: year4 a.y)).getLast?
      = some (digitChar (a.y % 100 % 10)) :=
    getLast?_append_right _ _ _ (getLast?_cons_right _ _ _
      (getLast?_append_right _ _ _ (getLast?_cons_right _ _ _ (getLast?_year4 _))))
  exact toDtStr_of_parse ty (a.d / 10) (by omega) _ (a.y % 100 % 10) (by omega) hlast a
    (parseWF_g6 a.d a.m a.y hd1 hd31 hm1 hm2 hy1 hy2 hd2)

theorem rt_ddSpMonY2 (ty : Nat) (a : YMD) (hv : validYMD a) (hy1 : 1969 ≤ a.y)
    (hy2 : a.y ≤ 2068) : toDtStr ty (fmtYMD .ddSpMonY2 a) = some a := by
  obtain ⟨hY1, hY2, hm1, hm2, hd1, hd2⟩ := hv
  have hd31 : a.d ≤ 31 := le_trans hd2 (daysInMonth_le_31 a.y a.m)
  have hlast : (pad2 a.d ++ ' ' :: (mon3 a.m ++ ' ' :: pad2 (a.y % 100))).getLast?
      = some (digitChar (a.y % 100 % 10)) :=
    getLast?_append_right _ _ _ (getLast?_cons_right _ _ _
      (getLast?_append_right _ _ _ (getLast?_cons_right _ _ _ (getLast?_pad2 _))))
  exact toDtStr_of_parse ty (a.d / 10) (by omega) _ (a.y % 100 % 10) (by omega) hlast a
    (parseWF_g7 a.d a.m a.y hd1 hd31 hm1 hm2 hy1 hy2 hd2)

/-- C6: the round-trip parse(format(d)) = d holds for every supported output
format — but only on the two-digit-year pivot window 1969–2068; outside it the
DD-Mon-YY, DD/MM/YY and DD Mon YY renderings re-parse to a different year, so
the claim's "arbitrary dates d" must be restricted to that window (see the
counterexample). Within the window, formatting a valid date in any of the
seven formats and parsing the result with to_dt returns the same date. -/
theorem c6_parser_roundtrip (ty : Nat) (f : OutFmt) (a : YMD) (hv : validYMD a)
    (hy1 : 1969 ≤ a.y) (hy2 : a.y ≤ 2068) :
    toDtStr ty (fmtYMD f a) = some a := by
  cases f
  · exact rt_ddMonY2 ty a hv hy1 hy2
  · exact rt_ddMonY4 ty a hv hy1 hy2
  · exact rt_ddSlashY4 ty a hv hy1 hy2
  · exact rt_ddSlashY2 ty a hv hy1 hy2
  · exact rt_isoY4 ty a hv hy1 hy2
  · exact rt_ddSpMonY4 ty a hv hy1 hy2
  · exact rt_ddSpMonY2 ty a hv hy1 hy2

/-- C6 counterexample: 15 January 1950 rendered as DD-Mon-YY is "15-Jan-50",
which the parser's two-digit-year pivot sends to 2050, not 1950 — the
round-trip fails for arbitrary dates. -/
theorem c6_roundtrip_cex :
    toDtStr 2025 (fmtYMD .ddMonY2 ⟨1950, 1, 15⟩) = some ⟨2050, 1, 15⟩
      ∧ (⟨2050, 1, 15⟩ : YMD) ≠ ⟨1950, 1, 15⟩ := by
  constructor
  · rfl
  · decide

/-- C6 witness: the round-trip theorem applied at 8 November 2025 in the
DD-Mon-YY format. -/
theorem c6_parser_roundtrip_witness :
    validYMD ⟨2025, 11, 8⟩ ∧ 1969 ≤ (2025 : Nat) ∧ (2025 : Nat) ≤ 2068
      ∧ toDtStr 2030 (fmtYMD .ddMonY2 ⟨2025, 11, 8⟩) = some ⟨2025, 11, 8⟩ :=
  ⟨by decide, by decide, by decide,
    c6_parser_roundtrip 2030 .ddMonY2 ⟨2025, 11, 8⟩ (by decide) (by decide) (by decide)⟩
